import Mathlib

/-!
# flagd sync service: `core/pkg/service/sync/server.go`

A shallow embedding of `Server.Serve`, its two listener tasks
(`startServer`, `startMetricsServer`), its two shutdown watchers and the
health/readiness handler, followed by the properties established about them.

`Serve` starts four goroutines in an `errgroup`.  The embedding is an
interleaving semantics: every task is cut into its atomic steps (one step per
blocking call or shared-memory access), a schedule is a list of actions, and
`run` executes a schedule.  Everything is executable.

External libraries are modelled from their documented contracts and are
marked as such: Go error values and `errors.Is`, `context` cancellation,
`errgroup.Group`, `net.Listen`, and `http.Server` (`Serve`, `ListenAndServe`,
`Shutdown`).  The interleavings are sequentially consistent.
-/

namespace SyncServer

/-! ## Go error values -/

/-- A non-nil Go error value: either a plain value (such as one made by
`errors.New`), identified by its text, or a value that wraps another one and
returns it from `Unwrap`. -/
inductive GoError where
  | plain (text : String)
  | wrap (text : String) (inner : GoError)
  deriving DecidableEq, Repr

/-- A Go `error` interface value; `none` is `nil`. -/
abbrev Err := Option GoError

/-- The sentinel `http.ErrServerClosed`. -/
def ErrServerClosed : GoError := .plain "http: Server closed"

/-- The sentinel `context.Canceled`. -/
def Canceled : GoError := .plain "context canceled"

/-- The sentinel `context.DeadlineExceeded`. -/
def DeadlineExceeded : GoError := .plain "context deadline exceeded"

/-- The loop of `errors.Is` on a non-nil error: compare, then unwrap. -/
def GoError.chainHas : GoError → GoError → Bool
  | .plain t, target => decide (GoError.plain t = target)
  | .wrap t inner, target => decide (GoError.wrap t inner = target) || inner.chainHas target

/-- The library function `errors.Is(err, target)` for a non-nil target. -/
def errorsIs (err : Err) (target : GoError) : Bool :=
  match err with
  | none => false
  | some e => e.chainHas target

/-- Specification of "e is, or wraps, target": the least relation containing
equality and closed under wrapping. -/
inductive IsOrWraps : GoError → GoError → Prop where
  | same (e : GoError) : IsOrWraps e e
  | wraps (text : String) (inner target : GoError) :
      IsOrWraps inner target → IsOrWraps (.wrap text inner) target

/-! ## HTTP status codes and the metrics handler -/

/-- The constant `http.StatusOK`. -/
def StatusOK : Nat := 200

/-- The constant `http.StatusPreconditionFailed`. -/
def StatusPreconditionFailed : Nat := 412

/-- The constant `http.StatusNotFound`. -/
def StatusNotFound : Nat := 404

/-- The fields of `iservice.Configuration` that `server.go` reads.  The probe
is a Go `func() bool` reading state outside this package; it is modelled as a
function of the instant at which it is called. -/
structure Configuration where
  Port : Nat
  MetricsPort : Nat
  ReadinessProbe : Nat → Bool

/-- The fields of `Server` that `Serve` and its tasks read or write.  A handle
is the identity of an `http.Server` object; `none` is the nil pointer.
(`Logger` and `handler` are never modified and are left out.) -/
structure Server where
  server : Option Nat
  metricsServer : Option Nat
  config : Configuration

/-- The part of an `http.Request` the metrics handler can look at. -/
structure Request where
  Method : String
  Path : String

/-- The `http.HandlerFunc` installed by `startMetricsServer` (lines 104-117):
the status passed to `w.WriteHeader` for request `r` served at instant `now`.
The closure reads `s.config` when the request is served. -/
def metricsHandler (s : Server) (now : Nat) (r : Request) : Nat :=
  if r.Path = "/healthz" then StatusOK
  else if r.Path = "/readyz" then
    if s.config.ReadinessProbe now then StatusOK else StatusPreconditionFailed
  else StatusNotFound

/-! ## The task group -/

/-- The four functions passed to `g.Go`, in the order of lines 44-55. -/
inductive Task where
  | primary
  | metrics
  | watchPrimary
  | watchMetrics
  deriving DecidableEq, Repr

/-- Where a task stands.  `start`: not yet run.  `bound`: `startServer` after
a successful `net.Listen`.  `created h`: a listener task after it stored the
new `http.Server` `h` in its field.  `serving h`: blocked in the accept loop of
`h`.  `woken`: a watcher after `<-gCtx.Done()`.  `done r`: returned `r`. -/
inductive Pc where
  | start
  | bound
  | created (h : Nat)
  | serving (h : Nat)
  | woken
  | done (r : Err)
  deriving DecidableEq, Repr

/-- The two contexts in scope in `Serve`. -/
inductive CtxRef where
  | ctx
  | gCtx
  deriving DecidableEq, Repr

/-- One invocation of `(*http.Server).Shutdown`: who called it, on which
server, with which context. -/
structure ShutdownCall where
  caller : Task
  handle : Nat
  ctxArg : CtxRef
  deriving DecidableEq, Repr

/-- What the outside world decides: whether `net.Listen` on a port succeeds
(`none`) or fails, whether server `h` still has a non-idle connection while
`Shutdown` polls, and the error (if any) from closing the listeners of `h`. -/
structure Env where
  listen : Nat → Err
  busy : Nat → Bool
  closeErr : Nat → Err

/-- The state of one `Serve` call together with the memory it shares with
earlier calls on the same `Server`. -/
structure State where
  /-- The receiver `*Server`. -/
  s : Server
  /-- Number of `http.Server` objects allocated so far; the next handle. -/
  nextHandle : Nat
  /-- Value of `nextHandle` when this `Serve` call began. -/
  base : Nat
  /-- Every `Shutdown` invocation so far, oldest first. -/
  shutdowns : List ShutdownCall
  /-- Whether `mux.Handle(path, handler)` ran in this call. -/
  registered : Bool
  /-- The value of `ctx.Err()`. -/
  ctx : Err
  /-- The value of `gCtx.Err()`. -/
  gCtx : Err
  /-- The field `g.err` of the errgroup. -/
  gErr : Err
  /-- Returns of the tasks, in the order the group observed them. -/
  observed : List (Task × Err)
  pcPrimary : Pc
  pcMetrics : Pc
  pcWatchPrimary : Pc
  pcWatchMetrics : Pc

/-- The program counter of a task. -/
def State.pcOf (st : State) : Task → Pc
  | .primary => st.pcPrimary
  | .metrics => st.pcMetrics
  | .watchPrimary => st.pcWatchPrimary
  | .watchMetrics => st.pcWatchMetrics

/-- Update the program counter of a task. -/
def State.setPc (st : State) (t : Task) (pc : Pc) : State :=
  match t with
  | .primary => { st with pcPrimary := pc }
  | .metrics => { st with pcMetrics := pc }
  | .watchPrimary => { st with pcWatchPrimary := pc }
  | .watchMetrics => { st with pcWatchMetrics := pc }

/-- The method `srv.shuttingDown()`: `Shutdown` has been called on `h`. -/
def State.shuttingDown (st : State) (h : Nat) : Bool :=
  st.shutdowns.any (fun c => c.handle == h)

/-- Cancelling a context: its error becomes `cause` unless it is already
done. -/
def cancelWith (c : Err) (cause : GoError) : Err :=
  match c with
  | some e => some e
  | none => some cause

/-- A function passed to `g.Go` returns `r` (errgroup: `if err := f(); err !=
nil then errOnce.Do (g.err = err; cancel)`).  The first non-nil return sets
`g.err` and cancels `gCtx`; later ones change nothing. -/
def taskReturn (st : State) (t : Task) (r : Err) : State :=
  let st1 := { st.setPc t (.done r) with observed := st.observed ++ [(t, r)] }
  match r with
  | none => st1
  | some e =>
    match st1.gErr with
    | some _ => st1
    | none => { st1 with gErr := some e, gCtx := cancelWith st1.gCtx Canceled }

/-- The tail shared by both listener tasks (lines 89-95 and 118-121):
`if err := serve(); err != nil && !errors.Is(err, http.ErrServerClosed)
then return err; return nil`. -/
def serveOutcome (err : Err) : Err :=
  if err ≠ none ∧ errorsIs err ErrServerClosed = false then err else none

/-- The value of `c.Err()` for a context in scope. -/
def State.ctxErr (st : State) : CtxRef → Err
  | .ctx => st.ctx
  | .gCtx => st.gCtx

/-- The library method `(*http.Server).Shutdown(c)`, called by task `t` on
server `h` with context `c`: its effect.  The server is marked as shutting
down and its listeners are closed, so a `Serve` loop on `h` returns
`http.ErrServerClosed`. -/
def shutdownCall (st : State) (t : Task) (h : Nat) (c : CtxRef) : State :=
  { st with shutdowns := st.shutdowns ++ [{ caller := t, handle := h, ctxArg := c }] }

/-- The library method `(*http.Server).Shutdown(c)` on server `h`: its return
value when the context `c` is already done, the only way this program calls
it.  If every connection is idle it returns the error from closing the
listeners, otherwise the context's error. -/
def shutdownErr (env : Env) (st : State) (h : Nat) (c : CtxRef) : Err :=
  if env.busy h then st.ctxErr c else env.closeErr h

/-- What a watcher returns after `err := srv.Shutdown(gCtx)` (lines 49-53):
`if err != nil then return err; return nil`. -/
def watcherResult (err : Err) : Err :=
  match err with
  | some e => some e
  | none => none

/-- One step of `startServer` (lines 72-96).  The steps are: `net.Listen`;
registering the handler and storing the new `http.Server` in `s.server`;
entering `s.server.Serve(lis)`; and the return of that call.  `Serve` returns
`http.ErrServerClosed` when the server is shutting down, at entry or later.
Within one call only this task writes `s.server`, so the server it serves on
is the one it stored, `h`. -/
def startServer (env : Env) (st : State) : State :=
  match st.pcPrimary with
  | .start =>
    match env.listen st.s.config.Port with
    | some e => taskReturn st .primary (some e)
    | none => { st with pcPrimary := .bound }
  | .bound =>
    { st with
      registered := true
      nextHandle := st.nextHandle + 1
      s := { st.s with server := some st.nextHandle }
      pcPrimary := .created st.nextHandle }
  | .created h =>
    if st.shuttingDown h then taskReturn st .primary (serveOutcome (some ErrServerClosed))
    else { st with pcPrimary := .serving h }
  | .serving h =>
    if st.shuttingDown h then taskReturn st .primary (serveOutcome (some ErrServerClosed))
    else st
  | _ => st

/-- One step of `startMetricsServer` (lines 98-122).  The steps are: storing
the new `http.Server` (with its handler) in `s.metricsServer`; entering
`ListenAndServe`, which returns `http.ErrServerClosed` if the server is
shutting down and the bind error if `net.Listen` fails; and the return of the
accept loop. -/
def startMetricsServer (env : Env) (st : State) : State :=
  match st.pcMetrics with
  | .start =>
    { st with
      nextHandle := st.nextHandle + 1
      s := { st.s with metricsServer := some st.nextHandle }
      pcMetrics := .created st.nextHandle }
  | .created h =>
    if st.shuttingDown h then taskReturn st .metrics (serveOutcome (some ErrServerClosed))
    else
      match env.listen st.s.config.MetricsPort with
      | some e => taskReturn st .metrics (serveOutcome (some e))
      | none => { st with pcMetrics := .serving h }
  | .serving h =>
    if st.shuttingDown h then taskReturn st .metrics (serveOutcome (some ErrServerClosed))
    else st
  | _ => st

/-- One step of a shutdown watcher (lines 46-54 and 55-63); `handle` is the
value of the field it reads (`s.server` or `s.metricsServer`).  The steps are:
`<-gCtx.Done()`, possible only once `gCtx` is done; then the nil test, the
call `Shutdown(gCtx)` and the return. -/
def watcher (t : Task) (handle : Option Nat) (env : Env) (st : State) : State :=
  match st.pcOf t with
  | .start => if st.gCtx.isSome then st.setPc t .woken else st
  | .woken =>
    match handle with
    | none => taskReturn st t none
    | some h =>
      taskReturn (shutdownCall st t h .gCtx) t (watcherResult (shutdownErr env st h .gCtx))
  | _ => st

/-- What can happen next: the caller's context becomes done with `cause`; a
task takes its next step; or the accept loop of a serving listener task
returns `r` on its own (an I/O failure). -/
inductive Action where
  | cancel (cause : GoError)
  | run (t : Task)
  | serveReturns (t : Task) (r : Err)

/-- One transition of the `Serve` call.  An action that is not possible in
the current state leaves it unchanged. -/
def step (env : Env) (st : State) : Action → State
  | .cancel cause =>
    { st with ctx := cancelWith st.ctx cause, gCtx := cancelWith st.gCtx cause }
  | .run .primary => startServer env st
  | .run .metrics => startMetricsServer env st
  | .run .watchPrimary => watcher .watchPrimary st.s.server env st
  | .run .watchMetrics => watcher .watchMetrics st.s.metricsServer env st
  | .serveReturns .primary r =>
    match st.pcPrimary with
    | .serving _ => taskReturn st .primary (serveOutcome r)
    | _ => st
  | .serveReturns .metrics r =>
    match st.pcMetrics with
    | .serving _ => taskReturn st .metrics (serveOutcome r)
    | _ => st
  | .serveReturns _ _ => st

/-- Execute a schedule. -/
def run (env : Env) (st : State) (sch : List Action) : State :=
  sch.foldl (step env) st

/-- Execute a schedule in which only tasks move. -/
def runTasks (env : Env) (st : State) (sch : List Task) : State :=
  run env st (sch.map Action.run)

/-- The function `NewServer`: both handles are nil and the configuration is
the zero value (whose probe is the nil function in Go; it is never called
before `Serve` has stored a configuration). -/
def NewServer : Server :=
  { server := none, metricsServer := none,
    config := { Port := 0, MetricsPort := 0, ReadinessProbe := fun _ => false } }

/-- A process that has just called `NewServer` and has allocated no
`http.Server` yet. -/
def fresh : State :=
  { s := NewServer
    nextHandle := 0
    base := 0
    shutdowns := []
    registered := false
    ctx := none
    gCtx := none
    gErr := none
    observed := []
    pcPrimary := .start
    pcMetrics := .start
    pcWatchPrimary := .start
    pcWatchMetrics := .start }

/-- Entry of `Serve(ctx, svcConf)` on the server and memory of `prev` (lines
40-63): store the configuration, derive the group context from `ctx`, and
register the four tasks.  The two handle fields are left as they are. -/
def enter (prev : State) (ctx : Err) (svcConf : Configuration) : State :=
  { s := { prev.s with config := svcConf }
    nextHandle := prev.nextHandle
    base := prev.nextHandle
    shutdowns := prev.shutdowns
    registered := false
    ctx := ctx
    gCtx := ctx
    gErr := none
    observed := []
    pcPrimary := .start
    pcMetrics := .start
    pcWatchPrimary := .start
    pcWatchMetrics := .start }

/-- All four tasks have returned, so `g.Wait()` unblocks. -/
def State.allDone (st : State) : Bool :=
  match st.pcPrimary, st.pcMetrics, st.pcWatchPrimary, st.pcWatchMetrics with
  | .done _, .done _, .done _, .done _ => true
  | _, _, _, _ => false

/-- What `Serve` has returned (lines 65-69): `none` while `g.Wait()` is still
blocked, otherwise `some err` with `err` the value of `g.err`. -/
def returned (st : State) : Option Err :=
  if st.allDone then
    match st.gErr with
    | some e => some (some e)
    | none => some none
  else none

/-- The method `Serve`: the state reached by `Serve(ctx, svcConf)` on `prev`
under environment `env` and schedule `sch`. -/
def Serve (env : Env) (prev : State) (ctx : Err) (svcConf : Configuration)
    (sch : List Action) : State :=
  run env (enter prev ctx svcConf) sch

/-- The first non-nil error of a log of task returns. -/
def firstError : List (Task × Err) → Err
  | [] => none
  | (_, some e) :: _ => some e
  | (_, none) :: rest => firstError rest

/-! ## Invariants used in the proofs -/

/-- Both listeners are bound and serving, on servers `h0` and `h1`, and nothing
has been cancelled or has failed yet: the listener tasks are in their accept
loops, the handle fields point at the two servers, and the watchers are still
blocked on `gCtx.Done()`. -/
def BothServing (st : State) (h0 h1 : Nat) : Prop :=
  st.pcPrimary = .serving h0 ∧ st.pcMetrics = .serving h1 ∧
  st.s.server = some h0 ∧ st.s.metricsServer = some h1 ∧
  st.pcWatchPrimary = .start ∧ st.pcWatchMetrics = .start ∧
  st.gCtx = none ∧ st.gErr = none

/-- Neither server has a connection in flight when it is shut down, and
closing their listeners reports no error. -/
def Quiet (env : Env) (h0 h1 : Nat) : Prop :=
  env.busy h0 = false ∧ env.closeErr h0 = none ∧
  env.busy h1 = false ∧ env.closeErr h1 = none

/-- What `Shutdown(gCtx)` on server `h` returns once `gCtx` is done with error
`cause`: the context's error if a connection is still in flight, otherwise the
error from closing the listeners. -/
def drainErr (env : Env) (cause : GoError) (h : Nat) : Err :=
  if env.busy h then some cause else env.closeErr h

/-- The states a `Serve` call goes through after its caller cancelled with
`cause` while both listeners were serving: the handles stay, each watcher is
blocked, woken, or done with the result of its `Shutdown` call, each listener
task is serving or has returned nil, and `g.err` is nil or the non-nil result
of a watcher that is done. -/
def Draining (env : Env) (cause : GoError) (st : State) (h0 h1 : Nat) : Prop :=
  st.gCtx = some cause ∧
  st.s.server = some h0 ∧ st.s.metricsServer = some h1 ∧
  (st.pcWatchPrimary = .start ∨ st.pcWatchPrimary = .woken ∨
    (st.pcWatchPrimary = .done (drainErr env cause h0) ∧ st.shuttingDown h0 = true)) ∧
  (st.pcWatchMetrics = .start ∨ st.pcWatchMetrics = .woken ∨
    (st.pcWatchMetrics = .done (drainErr env cause h1) ∧ st.shuttingDown h1 = true)) ∧
  (st.pcPrimary = .serving h0 ∨ st.pcPrimary = .done none) ∧
  (st.pcMetrics = .serving h1 ∨ st.pcMetrics = .done none) ∧
  (st.gErr = none ∨
    (st.gErr = drainErr env cause h0 ∧ st.pcWatchPrimary = .done (drainErr env cause h0)) ∨
    (st.gErr = drainErr env cause h1 ∧ st.pcWatchMetrics = .done (drainErr env cause h1))) ∧
  (st.pcWatchPrimary = .done (drainErr env cause h0) → st.gErr = none →
    drainErr env cause h0 = none) ∧
  (st.pcWatchMetrics = .done (drainErr env cause h1) → st.gErr = none →
    drainErr env cause h1 = none)

/-- The turns the primary side still needs, in order: its watcher wakes and
shuts the server down, then the listener task returns. -/
def pendingPrimary (st : State) : List Task :=
  match st.pcWatchPrimary with
  | .start => [.watchPrimary, .watchPrimary, .primary]
  | .woken => [.watchPrimary, .primary]
  | _ =>
    match st.pcPrimary with
    | .serving _ => [.primary]
    | _ => []

/-- The turns the metrics side still needs, in order. -/
def pendingMetrics (st : State) : List Task :=
  match st.pcWatchMetrics with
  | .start => [.watchMetrics, .watchMetrics, .metrics]
  | .woken => [.watchMetrics, .metrics]
  | _ =>
    match st.pcMetrics with
    | .serving _ => [.metrics]
    | _ => []

/-- The log of task returns agrees with the group: `g.err` is the first
non-nil error of the log, the log holds exactly the returns of the tasks that
are done, and no task is logged twice. -/
def Logged (st : State) : Prop :=
  st.gErr = firstError st.observed ∧
  (∀ t r, (t, r) ∈ st.observed ↔ st.pcOf t = .done r) ∧
  (st.observed.map Prod.fst).Nodup

/-- Every handle in a field was created during this call, a field is nil
until its listener task stores a handle, and every `Shutdown` call made since
the call began (after the calls `old` made before it) is on a handle created
during this call. -/
def OwnHandles (old : List ShutdownCall) (st : State) : Prop :=
  st.base ≤ st.nextHandle ∧
  (∀ h, st.s.server = some h → st.base ≤ h ∧ h < st.nextHandle) ∧
  (∀ h, st.s.metricsServer = some h → st.base ≤ h ∧ h < st.nextHandle) ∧
  (st.pcPrimary = .start ∨ st.pcPrimary = .bound → st.s.server = none) ∧
  (st.pcMetrics = .start → st.s.metricsServer = none) ∧
  (∃ new, st.shutdowns = old ++ new ∧
    ∀ c ∈ new, st.base ≤ c.handle ∧ c.handle < st.nextHandle)

/-- A watcher that is past `<-gCtx.Done()` implies that `gCtx` is done. -/
def WokenAfterDone (st : State) : Prop :=
  (st.pcWatchPrimary = .woken → st.gCtx.isSome = true) ∧
  (st.pcWatchMetrics = .woken → st.gCtx.isSome = true)

/-- Every port is free, no connection is in flight, closing never fails. -/
def freePorts : Env :=
  { listen := fun _ => none, busy := fun _ => false, closeErr := fun _ => none }

/-- As `freePorts`, but the first server created (handle 0) still has a
connection in flight when it is shut down. -/
def inFlight : Env :=
  { listen := fun _ => none, busy := fun h => h == 0, closeErr := fun _ => none }

/-- The error of `net.Listen` on a port that is in use. -/
def addrInUse : GoError :=
  .wrap "listen tcp :8015" (.plain "bind: address already in use")

/-- Port 8015 is in use, every other port is free. -/
def portTaken : Env :=
  { listen := fun p => if p = 8015 then some addrInUse else none,
    busy := fun _ => false, closeErr := fun _ => none }

/-- A configuration: sync port 8015, metrics port 8014, and a probe that
reports ready from instant 5 on. -/
def conf : Configuration :=
  { Port := 8015, MetricsPort := 8014, ReadinessProbe := fun now => decide (5 ≤ now) }

/-- Both listener tasks run until they are serving. -/
def bringUp : List Action :=
  [.run .primary, .run .primary, .run .primary, .run .metrics, .run .metrics]

/-- After cancellation: each watcher wakes and shuts its server down, then
each listener task returns. -/
def drain : List Task :=
  [.watchPrimary, .watchPrimary, .watchMetrics, .watchMetrics, .primary, .metrics]

/-- A whole call: bring both listeners up, cancel, drain. -/
def upAndDown : List Action :=
  bringUp ++ [.cancel Canceled] ++ drain.map Action.run

/-- An I/O failure of an accept loop. -/
def ioFault : GoError :=
  .wrap "accept tcp [::]:8015" (.plain "too many open files")

/-- Both listeners come up, then the primary accept loop fails by itself; the
group cancels, both watchers shut their servers down and the metrics task
returns. -/
def faultAndDown : List Action :=
  bringUp ++ [.serveReturns .primary (some ioFault), .run .watchPrimary, .run .watchPrimary,
    .run .watchMetrics, .run .watchMetrics, .run .metrics]

/-- Another order of the same turns, with idle turns in between. -/
def drainInterleaved : List Task :=
  [.primary, .watchMetrics, .watchPrimary, .metrics, .watchMetrics, .watchPrimary,
   .metrics, .primary]

/-- The primary bind fails and the metrics watcher runs before
`startMetricsServer` has stored its handle. -/
def watcherFirst : List Action :=
  [.run .primary, .run .watchMetrics, .run .watchMetrics, .run .watchPrimary,
   .run .watchPrimary, .run .metrics, .run .metrics]

/-- The primary bind fails after `startMetricsServer` has stored its handle:
the metrics watcher shuts the metrics server down and every task returns. -/
def metricsFirst : List Action :=
  [.run .metrics, .run .primary, .run .watchMetrics, .run .watchMetrics,
   .run .watchPrimary, .run .watchPrimary, .run .metrics]

/-- The primary bind fails and its watcher runs. -/
def bindFails : List Action :=
  [.run .primary, .run .watchPrimary, .run .watchPrimary]

/-- A first `Serve` call on a fresh server that is brought up, cancelled by
its caller and drained. -/
def firstCall (env : Env) : State :=
  runTasks env (step env (Serve env fresh none conf bringUp) (.cancel Canceled)) drain

/-- The state in which `Serve` with the primary port in use is left by the
schedule `watcherFirst`. -/
def blocked : State :=
  Serve portTaken fresh none conf watcherFirst

/-! # Properties -/

/-! ## Error values -/

theorem chainHas_iff (e target : GoError) : e.chainHas target = true ↔ IsOrWraps e target := by
  induction e with
  | plain t =>
    simp only [GoError.chainHas, decide_eq_true_eq]
    constructor
    · intro h; subst h; exact IsOrWraps.same _
    · intro h; cases h; rfl
  | wrap t inner ih =>
    simp only [GoError.chainHas, Bool.or_eq_true, decide_eq_true_eq, ih]
    constructor
    · rintro (h | h)
      · subst h; exact IsOrWraps.same _
      · exact IsOrWraps.wraps _ _ _ h
    · intro h
      cases h with
      | same => exact Or.inl rfl
      | wraps _ _ _ h => exact Or.inr h

theorem serveOutcome_benign (r : Err)
    (h : r = none ∨ ∃ e, r = some e ∧ IsOrWraps e ErrServerClosed) : serveOutcome r = none := by
  rcases h with h | ⟨e, h, hw⟩
  · subst h; simp [serveOutcome]
  · subst h
    have : e.chainHas ErrServerClosed = true := (chainHas_iff _ _).2 hw
    simp [serveOutcome, errorsIs, this]

theorem serveOutcome_other (r : Err) (hn : r ≠ none)
    (h : ∀ e, r = some e → ¬ IsOrWraps e ErrServerClosed) : serveOutcome r = r := by
  cases r with
  | none => exact absurd rfl hn
  | some e =>
    have : e.chainHas ErrServerClosed = false := by
      cases hc : e.chainHas ErrServerClosed with
      | false => rfl
      | true => exact absurd ((chainHas_iff _ _).1 hc) (h e rfl)
    simp [serveOutcome, errorsIs, this]

theorem serveOutcome_closed : serveOutcome (some ErrServerClosed) = none := by decide

@[simp] theorem watcherResult_eq (err : Err) : watcherResult err = err := by
  cases err <;> rfl

/-! ## Projections of the basic state changes -/

@[simp] theorem pcOf_setPc (st : State) (t t' : Task) (pc : Pc) :
    (st.setPc t pc).pcOf t' = if t' = t then pc else st.pcOf t' := by
  cases t <;> cases t' <;> simp [State.setPc, State.pcOf]

@[simp] theorem observed_taskReturn (st : State) (t : Task) (r : Err) :
    (taskReturn st t r).observed = st.observed ++ [(t, r)] := by
  cases r <;> cases h : st.gErr <;> cases t <;> simp [taskReturn, State.setPc, h]

@[simp] theorem pcOf_taskReturn (st : State) (t t' : Task) (r : Err) :
    (taskReturn st t r).pcOf t' = if t' = t then .done r else st.pcOf t' := by
  cases r <;> cases h : st.gErr <;> cases t <;> cases t' <;>
    simp [taskReturn, State.setPc, State.pcOf, h]

@[simp] theorem gErr_taskReturn (st : State) (t : Task) (r : Err) :
    (taskReturn st t r).gErr = (match st.gErr with | some e => some e | none => r) := by
  cases r <;> cases h : st.gErr <;> cases t <;> simp [taskReturn, State.setPc, h]

@[simp] theorem s_taskReturn (st : State) (t : Task) (r : Err) :
    (taskReturn st t r).s = st.s := by
  cases r <;> cases h : st.gErr <;> cases t <;> simp [taskReturn, State.setPc, h]

@[simp] theorem nextHandle_taskReturn (st : State) (t : Task) (r : Err) :
    (taskReturn st t r).nextHandle = st.nextHandle := by
  cases r <;> cases h : st.gErr <;> cases t <;> simp [taskReturn, State.setPc, h]

@[simp] theorem base_taskReturn (st : State) (t : Task) (r : Err) :
    (taskReturn st t r).base = st.base := by
  cases r <;> cases h : st.gErr <;> cases t <;> simp [taskReturn, State.setPc, h]

@[simp] theorem shutdowns_taskReturn (st : State) (t : Task) (r : Err) :
    (taskReturn st t r).shutdowns = st.shutdowns := by
  cases r <;> cases h : st.gErr <;> cases t <;> simp [taskReturn, State.setPc, h]

@[simp] theorem registered_taskReturn (st : State) (t : Task) (r : Err) :
    (taskReturn st t r).registered = st.registered := by
  cases r <;> cases h : st.gErr <;> cases t <;> simp [taskReturn, State.setPc, h]

@[simp] theorem gCtx_taskReturn_nil (st : State) (t : Task) :
    (taskReturn st t none).gCtx = st.gCtx := by
  cases t <;> simp [taskReturn, State.setPc]

theorem pcPrimary_eq (st : State) : st.pcPrimary = st.pcOf .primary := rfl

theorem pcMetrics_eq (st : State) : st.pcMetrics = st.pcOf .metrics := rfl

theorem pcWatchPrimary_eq (st : State) : st.pcWatchPrimary = st.pcOf .watchPrimary := rfl

theorem pcWatchMetrics_eq (st : State) : st.pcWatchMetrics = st.pcOf .watchMetrics := rfl

@[simp] theorem shuttingDown_taskReturn (st : State) (t : Task) (r : Err) (h : Nat) :
    (taskReturn st t r).shuttingDown h = st.shuttingDown h := by
  simp [State.shuttingDown]

theorem shuttingDown_shutdownCall (st : State) (t : Task) (h h' : Nat) (c : CtxRef) :
    (shutdownCall st t h c).shuttingDown h' = (st.shuttingDown h' || h == h') := by
  simp [State.shuttingDown, shutdownCall, List.any_append]

theorem run_cons (env : Env) (st : State) (a : Action) (sch : List Action) :
    run env st (a :: sch) = run env (step env st a) sch := rfl

theorem runTasks_cons (env : Env) (st : State) (t : Task) (sch : List Task) :
    runTasks env st (t :: sch) = runTasks env (step env st (.run t)) sch := rfl

theorem allDone_iff (st : State) :
    st.allDone = true ↔ ∃ r0 r1 r2 r3, st.pcPrimary = .done r0 ∧ st.pcMetrics = .done r1 ∧
      st.pcWatchPrimary = .done r2 ∧ st.pcWatchMetrics = .done r3 := by
  unfold State.allDone
  constructor
  · intro h
    split at h
    · exact ⟨_, _, _, _, by assumption, by assumption, by assumption, by assumption⟩
    · exact absurd h (by decide)
  · rintro ⟨r0, r1, r2, r3, h0, h1, h2, h3⟩
    rw [h0, h1, h2, h3]

theorem returned_eq (st : State) :
    returned st = if st.allDone = true then some st.gErr else none := by
  unfold returned
  cases st.gErr <;> rfl

/-! ## How one step moves the tasks -/

/-- A step of task `t` leaves the program counters of the other tasks alone. -/
theorem pcOf_step_other (env : Env) (st : State) (t t' : Task) (h : t' ≠ t) :
    (step env st (.run t)).pcOf t' = st.pcOf t' := by
  cases t <;> simp only [step, startServer, startMetricsServer, watcher] <;> repeat' split
  all_goals first
    | rfl
    | (rw [pcOf_taskReturn, if_neg h]; rfl)
    | rw [pcOf_taskReturn, if_neg h]
    | rw [pcOf_setPc, if_neg h]
    | (cases t' <;> first | rfl | exact absurd rfl h)

/-- A task that has returned takes no further step. -/
theorem step_of_done (env : Env) (st : State) (t : Task) (r : Err) (h : st.pcOf t = .done r) :
    step env st (.run t) = st := by
  cases t <;> simp only [State.pcOf] at h <;>
    simp [step, startServer, startMetricsServer, watcher, State.pcOf, h]

/-- The accept loop of a task that is not serving cannot return. -/
theorem serveReturns_of_done (env : Env) (st : State) (t : Task) (r r' : Err)
    (h : st.pcOf t = .done r) : step env st (.serveReturns t r') = st := by
  cases t <;> simp only [State.pcOf] at h <;> simp [step, h]

theorem serveReturns_frame (env : Env) (st : State) (t t' : Task) (r : Err) (h : t' ≠ t) :
    (step env st (.serveReturns t r)).pcOf t' = st.pcOf t' ∧
    (step env st (.serveReturns t r)).shutdowns = st.shutdowns := by
  cases t with
  | primary =>
    simp only [step]
    split
    · exact ⟨by rw [pcOf_taskReturn, if_neg h], shutdowns_taskReturn _ _ _⟩
    · exact ⟨rfl, rfl⟩
  | metrics =>
    simp only [step]
    split
    · exact ⟨by rw [pcOf_taskReturn, if_neg h], shutdowns_taskReturn _ _ _⟩
    · exact ⟨rfl, rfl⟩
  | watchPrimary => exact ⟨rfl, rfl⟩
  | watchMetrics => exact ⟨rfl, rfl⟩

/-- Only a watcher's own step records a `Shutdown` call, with itself as the
caller and the group context as the argument. -/
theorem shutdowns_step (env : Env) (st : State) (t : Task) :
    (step env st (.run t)).shutdowns = st.shutdowns ∨
    ∃ h, (step env st (.run t)).shutdowns = st.shutdowns ++ [⟨t, h, .gCtx⟩] := by
  cases t <;> simp only [step, startServer, startMetricsServer, watcher] <;> repeat' split
  all_goals first
    | exact Or.inl rfl
    | exact Or.inl (shutdowns_taskReturn _ _ _)
    | exact Or.inr ⟨_, (shutdowns_taskReturn _ _ _).trans rfl⟩

/-- Once `g.err` is set it never changes. -/
theorem gErr_step (env : Env) (st : State) (a : Action) (e : GoError) (h : st.gErr = some e) :
    (step env st a).gErr = some e := by
  cases a with
  | cancel cause => exact h
  | run t =>
    cases t <;> simp only [step, startServer, startMetricsServer, watcher] <;> repeat' split
    all_goals first
      | exact h
      | (rw [gErr_taskReturn]; simp only [shutdownCall, h])
  | serveReturns t r =>
    cases t <;> simp only [step] <;> repeat' split
    all_goals first
      | exact h
      | (rw [gErr_taskReturn]; simp only [h])

theorem gErr_run (env : Env) (e : GoError) (sch : List Action) :
    ∀ st : State, st.gErr = some e → (run env st sch).gErr = some e := by
  induction sch with
  | nil => intro st h; exact h
  | cons a sch ih => intro st h; exact ih _ (gErr_step env st a e h)

theorem base_step (env : Env) (st : State) (a : Action) : (step env st a).base = st.base := by
  cases a with
  | cancel cause => rfl
  | run t =>
    cases t <;> simp only [step, startServer, startMetricsServer, watcher] <;> repeat' split
    all_goals first
      | rfl
      | (rw [base_taskReturn]; rfl)
      | rw [base_taskReturn]
  | serveReturns t r =>
    cases t <;> simp only [step] <;> repeat' split
    all_goals first
      | rfl
      | rw [base_taskReturn]

theorem base_run (env : Env) (sch : List Action) :
    ∀ st : State, (run env st sch).base = st.base := by
  induction sch with
  | nil => intro st; rfl
  | cons a sch ih => intro st; rw [run_cons, ih, base_step]

/-! ## The log of task returns -/

theorem firstError_append (l : List (Task × Err)) (t : Task) (r : Err) :
    firstError (l ++ [(t, r)]) = (match firstError l with | some e => some e | none => r) := by
  induction l with
  | nil => cases r <;> simp [firstError]
  | cons a l ih =>
    obtain ⟨t', r'⟩ := a
    cases r' with
    | none => simpa [firstError] using ih
    | some e => simp [firstError]

theorem logged_taskReturn (st : State) (t : Task) (r : Err) (h : Logged st)
    (hnd : ∀ r', st.pcOf t ≠ .done r') : Logged (taskReturn st t r) := by
  obtain ⟨h1, h2, h3⟩ := h
  have hnot : ∀ r', (t, r') ∉ st.observed := fun r' hm => hnd r' ((h2 t r').1 hm)
  refine ⟨?_, ?_, ?_⟩
  · rw [gErr_taskReturn, observed_taskReturn, firstError_append, h1]
  · intro t' r'
    rw [observed_taskReturn, pcOf_taskReturn]
    by_cases htt : t' = t
    · subst htt
      simp [hnot, eq_comm]
    · simp [htt, h2]
  · rw [observed_taskReturn]
    simp only [List.map_append, List.map_cons, List.map_nil]
    rw [List.nodup_append]
    refine ⟨h3, by simp, ?_⟩
    intro a ha hb
    simp only [List.mem_singleton] at hb
    subst hb
    simp only [List.mem_map, Prod.exists, exists_and_right, exists_eq_right] at ha
    obtain ⟨r', hr'⟩ := ha
    exact hnot r' hr'

/-- A change of state that keeps the log and `g.err` and moves program counters only between
non-final values keeps `Logged`. -/
theorem logged_of_same (st st' : State) (h : Logged st) (hg : st'.gErr = st.gErr)
    (ho : st'.observed = st.observed)
    (hp : ∀ t r, st'.pcOf t = .done r ↔ st.pcOf t = .done r) : Logged st' := by
  obtain ⟨h1, h2, h3⟩ := h
  refine ⟨by rw [hg, ho, h1], ?_, by rw [ho]; exact h3⟩
  intro t r
  rw [ho, hp, h2]

theorem logged_step (env : Env) (st : State) (a : Action) (h : Logged st) :
    Logged (step env st a) := by
  cases a with
  | cancel cause => exact logged_of_same st _ h rfl rfl (fun _ _ => Iff.rfl)
  | run t =>
    cases t <;>
    simp only [step, startServer, startMetricsServer, watcher, shutdownCall, State.pcOf] <;>
    repeat' split
    all_goals first
      | exact h
      | (apply logged_taskReturn _ _ _ h; simp [State.pcOf, *])
      | (refine logged_taskReturn _ _ _ (logged_of_same st _ h rfl rfl (fun _ _ => Iff.rfl)) ?_
         simp [State.pcOf, *])
      | (refine logged_of_same st _ h rfl rfl ?_
         intro t r; cases t <;> simp [State.pcOf, State.setPc, *])
  | serveReturns t r =>
    cases t <;> simp only [step] <;> repeat' split
    all_goals first
      | exact h
      | (apply logged_taskReturn _ _ _ h; simp [State.pcOf, *])

theorem logged_run (env : Env) (sch : List Action) :
    ∀ st : State, Logged st → Logged (run env st sch) := by
  induction sch with
  | nil => intro st h; exact h
  | cons a sch ih => intro st h; exact ih _ (logged_step env st a h)

theorem logged_enter (prev : State) (ctx : Err) (svcConf : Configuration) :
    Logged (enter prev ctx svcConf) := by
  refine ⟨rfl, ?_, List.nodup_nil⟩
  intro t r
  cases t <;> simp [enter, State.pcOf]

theorem firstError_eq_none (l : List (Task × Err)) :
    firstError l = none ↔ ∀ t r, (t, r) ∈ l → r = none := by
  induction l with
  | nil => simp [firstError]
  | cons a l ih =>
    obtain ⟨t', r'⟩ := a
    cases r' with
    | none =>
      simp only [firstError, ih, List.mem_cons, Prod.mk.injEq]
      constructor
      · rintro h t r (⟨_, rfl⟩ | hm)
        · rfl
        · exact h t r hm
      · intro h t r hm
        exact h t r (Or.inr hm)
    | some e =>
      simp only [firstError, List.mem_cons, Prod.mk.injEq]
      constructor
      · intro h; cases h
      · intro h
        exact absurd (h t' (some e) (Or.inl ⟨rfl, rfl⟩)) (by simp)

/-! ## Handles created during a call -/

theorem ownHandles_taskReturn (old : List ShutdownCall) (st : State) (t : Task) (r : Err)
    (h : OwnHandles old st) : OwnHandles old (taskReturn st t r) := by
  obtain ⟨hb, hs, hm, hp, hq, hn⟩ := h
  refine ⟨by simpa using hb, by simpa using hs, by simpa using hm, ?_, ?_, by simpa using hn⟩
  · rw [pcPrimary_eq, pcOf_taskReturn]
    cases t <;> simp [State.pcOf] <;> exact hp
  · rw [pcMetrics_eq, pcOf_taskReturn]
    cases t <;> simp [State.pcOf] <;> exact hq

theorem ownHandles_shutdownCall (old : List ShutdownCall) (st : State) (w : Task) (h : Nat)
    (hst : OwnHandles old st) (h1 : st.base ≤ h) (h2 : h < st.nextHandle) :
    OwnHandles old (shutdownCall st w h .gCtx) := by
  obtain ⟨hb, hs, hm, hp, hq, new, hnew, hall⟩ := hst
  refine ⟨hb, hs, hm, hp, hq, new ++ [⟨w, h, .gCtx⟩], ?_, ?_⟩
  · simp [shutdownCall, hnew]
  · intro c hc
    rw [List.mem_append, List.mem_singleton] at hc
    rcases hc with hc | hc
    · exact hall c hc
    · subst hc; exact ⟨h1, h2⟩

theorem ownHandles_setPc_watcher (old : List ShutdownCall) (st : State) (w : Task) (pc : Pc)
    (hw : w = .watchPrimary ∨ w = .watchMetrics) (hst : OwnHandles old st) :
    OwnHandles old (st.setPc w pc) := by
  rcases hw with hw | hw <;> subst hw <;> exact hst

theorem ownHandles_primary (env : Env) (old : List ShutdownCall) (st : State)
    (h : OwnHandles old st) : OwnHandles old (startServer env st) := by
  unfold startServer
  split
  · split
    · exact ownHandles_taskReturn _ _ _ _ h
    · obtain ⟨hb, hs, hm, hp, hq, hn⟩ := h
      exact ⟨hb, hs, hm, fun _ => hp (Or.inl (by assumption)), hq, hn⟩
  · obtain ⟨hb, hs, hm, hp, hq, new, hnew, hall⟩ := h
    refine ⟨Nat.le_succ_of_le hb, ?_, ?_, ?_, hq, new, hnew, ?_⟩
    · intro h hh
      simp only [Option.some.injEq] at hh
      subst hh
      exact ⟨hb, Nat.lt_succ_self _⟩
    · intro h hh
      exact ⟨(hm h hh).1, Nat.lt_succ_of_lt (hm h hh).2⟩
    · intro hc
      simp at hc
    · intro c hc
      exact ⟨(hall c hc).1, Nat.lt_succ_of_lt (hall c hc).2⟩
  · obtain ⟨hb, hs, hm, hp, hq, hn⟩ := h
    split
    · exact ownHandles_taskReturn _ _ _ _ ⟨hb, hs, hm, hp, hq, hn⟩
    · refine ⟨hb, hs, hm, ?_, hq, hn⟩
      intro hc
      simp at hc
  · split
    · exact ownHandles_taskReturn _ _ _ _ h
    · exact h
  · exact h

theorem ownHandles_metrics (env : Env) (old : List ShutdownCall) (st : State)
    (h : OwnHandles old st) : OwnHandles old (startMetricsServer env st) := by
  unfold startMetricsServer
  split
  · obtain ⟨hb, hs, hm, hp, hq, new, hnew, hall⟩ := h
    refine ⟨Nat.le_succ_of_le hb, ?_, ?_, hp, ?_, new, hnew, ?_⟩
    · intro h hh
      exact ⟨(hs h hh).1, Nat.lt_succ_of_lt (hs h hh).2⟩
    · intro h hh
      simp only [Option.some.injEq] at hh
      subst hh
      exact ⟨hb, Nat.lt_succ_self _⟩
    · intro hc
      simp at hc
    · intro c hc
      exact ⟨(hall c hc).1, Nat.lt_succ_of_lt (hall c hc).2⟩
  · split
    · exact ownHandles_taskReturn _ _ _ _ h
    · split
      · exact ownHandles_taskReturn _ _ _ _ h
      · obtain ⟨hb, hs, hm, hp, hq, hn⟩ := h
        refine ⟨hb, hs, hm, hp, ?_, hn⟩
        intro hc
        simp_all
  · split
    · exact ownHandles_taskReturn _ _ _ _ h
    · exact h
  · exact h

theorem ownHandles_watcher (env : Env) (old : List ShutdownCall) (st : State) (w : Task)
    (field : Option Nat) (hw : w = .watchPrimary ∨ w = .watchMetrics)
    (hf : ∀ h, field = some h → st.base ≤ h ∧ h < st.nextHandle)
    (h : OwnHandles old st) : OwnHandles old (watcher w field env st) := by
  unfold watcher
  split
  · split
    · exact ownHandles_setPc_watcher _ _ _ _ hw h
    · exact h
  · split
    · exact ownHandles_taskReturn _ _ _ _ h
    · exact ownHandles_taskReturn _ _ _ _
        (ownHandles_shutdownCall _ _ _ _ h (hf _ rfl).1 (hf _ rfl).2)
  · exact h

theorem ownHandles_step (env : Env) (old : List ShutdownCall) (st : State) (a : Action)
    (h : OwnHandles old st) : OwnHandles old (step env st a) := by
  cases a with
  | cancel cause => exact h
  | run t =>
    cases t with
    | primary => exact ownHandles_primary env old st h
    | metrics => exact ownHandles_metrics env old st h
    | watchPrimary => exact ownHandles_watcher env old st _ _ (Or.inl rfl) h.2.1 h
    | watchMetrics => exact ownHandles_watcher env old st _ _ (Or.inr rfl) h.2.2.1 h
  | serveReturns t r =>
    cases t <;> simp only [step] <;> repeat' split
    all_goals first
      | exact h
      | exact ownHandles_taskReturn _ _ _ _ h

theorem ownHandles_run (env : Env) (old : List ShutdownCall) (sch : List Action) :
    ∀ st : State, OwnHandles old st → OwnHandles old (run env st sch) := by
  induction sch with
  | nil => intro st h; exact h
  | cons a sch ih => intro st h; exact ih _ (ownHandles_step env old st a h)

theorem ownHandles_enter (prev : State) (ctx : Err) (svcConf : Configuration)
    (hs : prev.s.server = none) (hm : prev.s.metricsServer = none) :
    OwnHandles prev.shutdowns (enter prev ctx svcConf) := by
  refine ⟨Nat.le_refl _, ?_, ?_, fun _ => hs, fun _ => hm, [], ?_, ?_⟩
  · intro h hh
    simp [enter, hs] at hh
  · intro h hh
    simp [enter, hm] at hh
  · simp [enter]
  · intro c hc
    cases hc

/-! ## Draining after cancellation -/

theorem gErr_taskReturn_nil (st : State) (t : Task) : (taskReturn st t none).gErr = st.gErr := by
  rw [gErr_taskReturn]
  cases st.gErr <;> rfl

theorem gCtx_taskReturn_of_some (st : State) (t : Task) (r : Err) (c : GoError)
    (h : st.gCtx = some c) : (taskReturn st t r).gCtx = some c := by
  cases r <;> cases hg : st.gErr <;> cases t <;>
    simp [taskReturn, State.setPc, hg, h, cancelWith]

theorem shutdownErr_of_done (env : Env) (st : State) (h : Nat) (cause : GoError)
    (hc : st.gCtx = some cause) : shutdownErr env st h .gCtx = drainErr env cause h := by
  simp only [shutdownErr, drainErr, State.ctxErr, hc]

/-- A listener task returning nil keeps a draining call draining. -/
theorem draining_listener_return (env : Env) (cause : GoError) (st : State) (h0 h1 : Nat)
    (t : Task) (ht : t = .primary ∨ t = .metrics) (h : Draining env cause st h0 h1) :
    Draining env cause (taskReturn st t none) h0 h1 := by
  obtain ⟨a, c, d, e, f, g, i, j, k, l⟩ := h
  have hwp : (taskReturn st t none).pcWatchPrimary = st.pcWatchPrimary := by
    rw [pcWatchPrimary_eq, pcOf_taskReturn]
    rcases ht with ht | ht <;> subst ht <;> rfl
  have hwm : (taskReturn st t none).pcWatchMetrics = st.pcWatchMetrics := by
    rw [pcWatchMetrics_eq, pcOf_taskReturn]
    rcases ht with ht | ht <;> subst ht <;> rfl
  refine ⟨by rw [gCtx_taskReturn_nil]; exact a, by rw [s_taskReturn]; exact c,
    by rw [s_taskReturn]; exact d, ?_, ?_, ?_, ?_, ?_, ?_, ?_⟩
  · rw [hwp, shuttingDown_taskReturn]; exact e
  · rw [hwm, shuttingDown_taskReturn]; exact f
  · rw [pcPrimary_eq, pcOf_taskReturn]
    rcases ht with ht | ht <;> subst ht
    · exact Or.inr (if_pos rfl)
    · exact g
  · rw [pcMetrics_eq, pcOf_taskReturn]
    rcases ht with ht | ht <;> subst ht
    · exact i
    · exact Or.inr (if_pos rfl)
  · rw [hwp, hwm, gErr_taskReturn_nil]; exact j
  · rw [hwp, gErr_taskReturn_nil]; exact k
  · rw [hwm, gErr_taskReturn_nil]; exact l

theorem draining_step (env : Env) (cause : GoError) (st : State) (h0 h1 : Nat) (t : Task)
    (h : Draining env cause st h0 h1) :
    Draining env cause (step env st (.run t)) h0 h1 := by
  have h' := h
  obtain ⟨a, c, d, e, f, g, i, j, k, l⟩ := h'
  cases t with
  | primary =>
    simp only [step, startServer]
    rcases g with g | g
    · rw [g]
      simp only [serveOutcome_closed]
      split
      · exact draining_listener_return env cause st h0 h1 .primary (Or.inl rfl) h
      · exact h
    · rw [g]; exact h
  | metrics =>
    simp only [step, startMetricsServer]
    rcases i with i | i
    · rw [i]
      simp only [serveOutcome_closed]
      split
      · exact draining_listener_return env cause st h0 h1 .metrics (Or.inr rfl) h
      · exact h
    · rw [i]; exact h
  | watchPrimary =>
    simp only [step, watcher, State.pcOf, c]
    rcases e with e | e | ⟨e, e'⟩
    · rw [e]
      simp only [a, Option.isSome_some, if_true]
      refine ⟨a, c, d, Or.inr (Or.inl rfl), f, g, i, ?_, ?_, l⟩
      · rcases j with j | ⟨_, j⟩ | j
        · exact Or.inl j
        · rw [e] at j; cases j
        · exact Or.inr (Or.inr j)
      · intro hw; cases hw
    · rw [e]
      simp only [watcherResult_eq, shutdownErr_of_done env st h0 cause a]
      have hg : st.gErr = none ∨
          (st.gErr = drainErr env cause h1 ∧
            st.pcWatchMetrics = .done (drainErr env cause h1)) := by
        rcases j with j | ⟨_, j⟩ | j
        · exact Or.inl j
        · rw [e] at j; cases j
        · exact Or.inr j
      have hE : (taskReturn (shutdownCall st .watchPrimary h0 .gCtx) .watchPrimary
          (drainErr env cause h0)).gErr
          = (match st.gErr with | some e => some e | none => drainErr env cause h0) :=
        gErr_taskReturn _ _ _
      refine ⟨gCtx_taskReturn_of_some _ _ _ _ a, by rw [s_taskReturn]; exact c,
        by rw [s_taskReturn]; exact d, ?_, ?_, ?_, ?_, ?_, ?_, ?_⟩
      · refine Or.inr (Or.inr ⟨by rw [pcWatchPrimary_eq, pcOf_taskReturn, if_pos rfl], ?_⟩)
        rw [shuttingDown_taskReturn, shuttingDown_shutdownCall]
        simp
      · rw [pcWatchMetrics_eq, pcOf_taskReturn, if_neg (by decide), shuttingDown_taskReturn,
          shuttingDown_shutdownCall]
        rcases f with f | f | ⟨f, f'⟩
        · exact Or.inl f
        · exact Or.inr (Or.inl f)
        · exact Or.inr (Or.inr ⟨f, by rw [f']; rfl⟩)
      · rw [pcPrimary_eq, pcOf_taskReturn, if_neg (by decide)]; exact g
      · rw [pcMetrics_eq, pcOf_taskReturn, if_neg (by decide)]; exact i
      · rw [pcWatchPrimary_eq, pcOf_taskReturn, if_pos rfl,
          pcWatchMetrics_eq, pcOf_taskReturn, if_neg (by decide), hE]
        cases hgE : st.gErr with
        | none => exact Or.inr (Or.inl ⟨rfl, rfl⟩)
        | some x =>
          rcases hg with hg | ⟨hg, hm⟩
          · rw [hgE] at hg; cases hg
          · rw [hgE] at hg
            exact Or.inr (Or.inr ⟨hg, hm⟩)
      · intro _ hn
        rw [hE] at hn
        cases hgE : st.gErr with
        | none => rw [hgE] at hn; exact hn
        | some x => rw [hgE] at hn; cases hn
      · rw [pcWatchMetrics_eq, pcOf_taskReturn, if_neg (by decide)]
        intro hm hn
        rw [hE] at hn
        cases hgE : st.gErr with
        | none => exact l hm hgE
        | some x => rw [hgE] at hn; cases hn
    · rw [e]; exact h
  | watchMetrics =>
    simp only [step, watcher, State.pcOf, d]
    rcases f with f | f | ⟨f, f'⟩
    · rw [f]
      simp only [a, Option.isSome_some, if_true]
      refine ⟨a, c, d, e, Or.inr (Or.inl rfl), g, i, ?_, k, ?_⟩
      · rcases j with j | j | ⟨_, j⟩
        · exact Or.inl j
        · exact Or.inr (Or.inl j)
        · rw [f] at j; cases j
      · intro hw; cases hw
    · rw [f]
      simp only [watcherResult_eq, shutdownErr_of_done env st h1 cause a]
      have hg : st.gErr = none ∨
          (st.gErr = drainErr env cause h0 ∧
            st.pcWatchPrimary = .done (drainErr env cause h0)) := by
        rcases j with j | j | ⟨_, j⟩
        · exact Or.inl j
        · exact Or.inr j
        · rw [f] at j; cases j
      have hE : (taskReturn (shutdownCall st .watchMetrics h1 .gCtx) .watchMetrics
          (drainErr env cause h1)).gErr
          = (match st.gErr with | some e => some e | none => drainErr env cause h1) :=
        gErr_taskReturn _ _ _
      refine ⟨gCtx_taskReturn_of_some _ _ _ _ a, by rw [s_taskReturn]; exact c,
        by rw [s_taskReturn]; exact d, ?_, ?_, ?_, ?_, ?_, ?_, ?_⟩
      · rw [pcWatchPrimary_eq, pcOf_taskReturn, if_neg (by decide), shuttingDown_taskReturn,
          shuttingDown_shutdownCall]
        rcases e with e | e | ⟨e, e'⟩
        · exact Or.inl e
        · exact Or.inr (Or.inl e)
        · exact Or.inr (Or.inr ⟨e, by rw [e']; rfl⟩)
      · refine Or.inr (Or.inr ⟨by rw [pcWatchMetrics_eq, pcOf_taskReturn, if_pos rfl], ?_⟩)
        rw [shuttingDown_taskReturn, shuttingDown_shutdownCall]
        simp
      · rw [pcPrimary_eq, pcOf_taskReturn, if_neg (by decide)]; exact g
      · rw [pcMetrics_eq, pcOf_taskReturn, if_neg (by decide)]; exact i
      · rw [pcWatchPrimary_eq, pcOf_taskReturn, if_neg (by decide),
          pcWatchMetrics_eq, pcOf_taskReturn, if_pos rfl, hE]
        cases hgE : st.gErr with
        | none => exact Or.inr (Or.inr ⟨rfl, rfl⟩)
        | some x =>
          rcases hg with hg | ⟨hg, hm⟩
          · rw [hgE] at hg; cases hg
          · rw [hgE] at hg
            exact Or.inr (Or.inl ⟨hg, hm⟩)
      · rw [pcWatchPrimary_eq, pcOf_taskReturn, if_neg (by decide)]
        intro hm hn
        rw [hE] at hn
        cases hgE : st.gErr with
        | none => exact k hm hgE
        | some x => rw [hgE] at hn; cases hn
      · intro _ hn
        rw [hE] at hn
        cases hgE : st.gErr with
        | none => rw [hgE] at hn; exact hn
        | some x => rw [hgE] at hn; cases hn
    · rw [f]; exact h

theorem draining_run (env : Env) (cause : GoError) (h0 h1 : Nat) (sch : List Task) :
    ∀ st : State, Draining env cause st h0 h1 →
      Draining env cause (runTasks env st sch) h0 h1 := by
  induction sch with
  | nil => intro st h; exact h
  | cons t sch ih => intro st h; exact ih _ (draining_step env cause st h0 h1 t h)

theorem draining_of_cancel (env : Env) (st : State) (h0 h1 : Nat) (cause : GoError)
    (h : BothServing st h0 h1) : Draining env cause (step env st (.cancel cause)) h0 h1 := by
  obtain ⟨a, b, c, d, e, f, g, i⟩ := h
  refine ⟨by simp [step, g, cancelWith], c, d, Or.inl e, Or.inl f, Or.inl a, Or.inl b,
    Or.inl i, ?_, ?_⟩
  · intro hw
    have : (step env st (.cancel cause)).pcWatchPrimary = .start := e
    rw [this] at hw; cases hw
  · intro hw
    have : (step env st (.cancel cause)).pcWatchMetrics = .start := f
    rw [this] at hw; cases hw

theorem sublist_of_head_ne {α : Type} {a b : α} {l l' : List α} (hne : a ≠ b)
    (h : (a :: l).Sublist (b :: l')) : (a :: l).Sublist l' := by
  rcases List.sublist_cons_iff.1 h with h | ⟨r, hr, _⟩
  · exact h
  · exact absurd (List.cons.inj hr).1 hne

theorem sublist_of_not_mem {α : Type} {b : α} {l l' : List α} (hne : b ∉ l)
    (h : l.Sublist (b :: l')) : l.Sublist l' := by
  rcases List.sublist_cons_iff.1 h with h | ⟨r, hr, _⟩
  · exact h
  · exact absurd (by rw [hr]; exact List.mem_cons_self _ _) hne

theorem metrics_not_mem_pendingPrimary (st : State) : Task.metrics ∉ pendingPrimary st := by
  unfold pendingPrimary; repeat' split
  all_goals decide

theorem watchMetrics_not_mem_pendingPrimary (st : State) :
    Task.watchMetrics ∉ pendingPrimary st := by
  unfold pendingPrimary; repeat' split
  all_goals decide

theorem pendingPrimary_congr (st st' : State) (h1 : st'.pcWatchPrimary = st.pcWatchPrimary)
    (h2 : st'.pcPrimary = st.pcPrimary) : pendingPrimary st' = pendingPrimary st := by
  simp only [pendingPrimary, h1, h2]

theorem pendingPrimary_step (env : Env) (cause : GoError) (st : State) (h0 h1 : Nat)
    (t : Task) (sch : List Task) (h : Draining env cause st h0 h1)
    (hs : (pendingPrimary st).Sublist (t :: sch)) :
    (pendingPrimary (step env st (.run t))).Sublist sch := by
  obtain ⟨a, c, d, e, f, g, i, _, _, _⟩ := h
  cases t with
  | metrics =>
    rw [pendingPrimary_congr st _ (pcOf_step_other env st .metrics .watchPrimary (by decide))
      (pcOf_step_other env st .metrics .primary (by decide))]
    exact sublist_of_not_mem (metrics_not_mem_pendingPrimary st) hs
  | watchMetrics =>
    rw [pendingPrimary_congr st _ (pcOf_step_other env st .watchMetrics .watchPrimary (by decide))
      (pcOf_step_other env st .watchMetrics .primary (by decide))]
    exact sublist_of_not_mem (watchMetrics_not_mem_pendingPrimary st) hs
  | primary =>
    have e1 : (step env st (.run .primary)).pcWatchPrimary = st.pcWatchPrimary :=
      pcOf_step_other env st .primary .watchPrimary (by decide)
    rcases e with e | e | ⟨e, e'⟩
    · have hp : ∀ s : State, s.pcWatchPrimary = .start →
          pendingPrimary s = [.watchPrimary, .watchPrimary, .primary] := by
        intro s hs; simp only [pendingPrimary, hs]
      rw [hp _ (e1.trans e)]
      rw [hp _ e] at hs
      exact sublist_of_head_ne (by decide) hs
    · have hp : ∀ s : State, s.pcWatchPrimary = .woken →
          pendingPrimary s = [.watchPrimary, .primary] := by
        intro s hs; simp only [pendingPrimary, hs]
      rw [hp _ (e1.trans e)]
      rw [hp _ e] at hs
      exact sublist_of_head_ne (by decide) hs
    · have hp : (step env st (.run .primary)).pcPrimary = .done none := by
        rcases g with g | g
        · simp only [step, startServer, g, e', serveOutcome_closed, if_true]
          rw [pcPrimary_eq, pcOf_taskReturn, if_pos rfl]
        · rw [step_of_done env st .primary none g]; exact g
      have : pendingPrimary (step env st (.run .primary)) = [] := by
        simp only [pendingPrimary, e1, e, hp]
      rw [this]
      exact List.nil_sublist _
  | watchPrimary =>
    have e2 : (step env st (.run .watchPrimary)).pcPrimary = st.pcPrimary :=
      pcOf_step_other env st .watchPrimary .primary (by decide)
    rcases e with e | e | ⟨e, e'⟩
    · have hp : (step env st (.run .watchPrimary)).pcWatchPrimary = .woken := by
        simp only [step, watcher, State.pcOf, e, a, Option.isSome_some, if_true]
        rw [pcWatchPrimary_eq, pcOf_setPc, if_pos rfl]
      have h1 : pendingPrimary st = [.watchPrimary, .watchPrimary, .primary] := by
        simp only [pendingPrimary, e]
      have h2 : pendingPrimary (step env st (.run .watchPrimary)) = [.watchPrimary, .primary] := by
        simp only [pendingPrimary, hp]
      rw [h2]
      rw [h1] at hs
      exact List.cons_sublist_cons.1 hs
    · have hp : (step env st (.run .watchPrimary)).pcWatchPrimary
          = .done (shutdownErr env st h0 .gCtx) := by
        simp only [step, watcher, State.pcOf, e, c, watcherResult_eq]
        rw [pcWatchPrimary_eq, pcOf_taskReturn, if_pos rfl]
      have h1 : pendingPrimary st = [.watchPrimary, .primary] := by
        simp only [pendingPrimary, e]
      rw [h1] at hs
      have hs' := List.cons_sublist_cons.1 hs
      rcases g with g | g
      · have h2 : pendingPrimary (step env st (.run .watchPrimary)) = [.primary] := by
          simp only [pendingPrimary, hp, e2, g]
        rw [h2]; exact hs'
      · have h2 : pendingPrimary (step env st (.run .watchPrimary)) = [] := by
          simp only [pendingPrimary, hp, e2, g]
        rw [h2]; exact List.nil_sublist _
    · rw [step_of_done env st .watchPrimary _ e]
      apply sublist_of_not_mem _ hs
      simp only [pendingPrimary, e]
      split <;> decide

theorem primary_not_mem_pendingMetrics (st : State) : Task.primary ∉ pendingMetrics st := by
  unfold pendingMetrics; repeat' split
  all_goals decide

theorem watchPrimary_not_mem_pendingMetrics (st : State) :
    Task.watchPrimary ∉ pendingMetrics st := by
  unfold pendingMetrics; repeat' split
  all_goals decide

theorem pendingMetrics_congr (st st' : State) (h1 : st'.pcWatchMetrics = st.pcWatchMetrics)
    (h2 : st'.pcMetrics = st.pcMetrics) : pendingMetrics st' = pendingMetrics st := by
  simp only [pendingMetrics, h1, h2]

theorem pendingMetrics_step (env : Env) (cause : GoError) (st : State) (h0 h1 : Nat)
    (t : Task) (sch : List Task) (h : Draining env cause st h0 h1)
    (hs : (pendingMetrics st).Sublist (t :: sch)) :
    (pendingMetrics (step env st (.run t))).Sublist sch := by
  obtain ⟨a, d, c, f, e, i, g, _, _, _⟩ := h
  cases t with
  | primary =>
    rw [pendingMetrics_congr st _ (pcOf_step_other env st .primary .watchMetrics (by decide))
      (pcOf_step_other env st .primary .metrics (by decide))]
    exact sublist_of_not_mem (primary_not_mem_pendingMetrics st) hs
  | watchPrimary =>
    rw [pendingMetrics_congr st _ (pcOf_step_other env st .watchPrimary .watchMetrics (by decide))
      (pcOf_step_other env st .watchPrimary .metrics (by decide))]
    exact sublist_of_not_mem (watchPrimary_not_mem_pendingMetrics st) hs
  | metrics =>
    have e1 : (step env st (.run .metrics)).pcWatchMetrics = st.pcWatchMetrics :=
      pcOf_step_other env st .metrics .watchMetrics (by decide)
    rcases e with e | e | ⟨e, e'⟩
    · have hp : ∀ s : State, s.pcWatchMetrics = .start →
          pendingMetrics s = [.watchMetrics, .watchMetrics, .metrics] := by
        intro s hs; simp only [pendingMetrics, hs]
      rw [hp _ (e1.trans e)]
      rw [hp _ e] at hs
      exact sublist_of_head_ne (by decide) hs
    · have hp : ∀ s : State, s.pcWatchMetrics = .woken →
          pendingMetrics s = [.watchMetrics, .metrics] := by
        intro s hs; simp only [pendingMetrics, hs]
      rw [hp _ (e1.trans e)]
      rw [hp _ e] at hs
      exact sublist_of_head_ne (by decide) hs
    · have hp : (step env st (.run .metrics)).pcMetrics = .done none := by
        rcases g with g | g
        · simp only [step, startMetricsServer, g, e', serveOutcome_closed, if_true]
          rw [pcMetrics_eq, pcOf_taskReturn, if_pos rfl]
        · rw [step_of_done env st .metrics none g]; exact g
      have : pendingMetrics (step env st (.run .metrics)) = [] := by
        simp only [pendingMetrics, e1, e, hp]
      rw [this]
      exact List.nil_sublist _
  | watchMetrics =>
    have e2 : (step env st (.run .watchMetrics)).pcMetrics = st.pcMetrics :=
      pcOf_step_other env st .watchMetrics .metrics (by decide)
    rcases e with e | e | ⟨e, e'⟩
    · have hp : (step env st (.run .watchMetrics)).pcWatchMetrics = .woken := by
        simp only [step, watcher, State.pcOf, e, a, Option.isSome_some, if_true]
        rw [pcWatchMetrics_eq, pcOf_setPc, if_pos rfl]
      have h1 : pendingMetrics st = [.watchMetrics, .watchMetrics, .metrics] := by
        simp only [pendingMetrics, e]
      have h2 : pendingMetrics (step env st (.run .watchMetrics)) = [.watchMetrics, .metrics] := by
        simp only [pendingMetrics, hp]
      rw [h2]
      rw [h1] at hs
      exact List.cons_sublist_cons.1 hs
    · have hp : (step env st (.run .watchMetrics)).pcWatchMetrics
          = .done (shutdownErr env st h1 .gCtx) := by
        simp only [step, watcher, State.pcOf, e, c, watcherResult_eq]
        rw [pcWatchMetrics_eq, pcOf_taskReturn, if_pos rfl]
      have h1 : pendingMetrics st = [.watchMetrics, .metrics] := by
        simp only [pendingMetrics, e]
      rw [h1] at hs
      have hs' := List.cons_sublist_cons.1 hs
      rcases g with g | g
      · have h2 : pendingMetrics (step env st (.run .watchMetrics)) = [.metrics] := by
          simp only [pendingMetrics, hp, e2, g]
        rw [h2]; exact hs'
      · have h2 : pendingMetrics (step env st (.run .watchMetrics)) = [] := by
          simp only [pendingMetrics, hp, e2, g]
        rw [h2]; exact List.nil_sublist _
    · rw [step_of_done env st .watchMetrics _ e]
      apply sublist_of_not_mem _ hs
      simp only [pendingMetrics, e]
      split <;> decide

/-! ## `Shutdown` is only called with a context that is done -/

theorem gCtx_taskReturn_isSome (st : State) (t : Task) (r : Err)
    (h : st.gCtx.isSome = true) : (taskReturn st t r).gCtx.isSome = true := by
  cases hc : st.gCtx with
  | none => rw [hc] at h; cases h
  | some c =>
    cases r <;> cases hg : st.gErr <;> cases t <;>
      simp [taskReturn, State.setPc, hg, hc, cancelWith]

theorem gCtx_step_isSome (env : Env) (st : State) (a : Action)
    (h : st.gCtx.isSome = true) : (step env st a).gCtx.isSome = true := by
  cases a with
  | cancel cause =>
    cases hc : st.gCtx with
    | none => rw [hc] at h; cases h
    | some c => simp [step, hc, cancelWith]
  | run t =>
    cases t <;> simp only [step, startServer, startMetricsServer, watcher] <;> repeat' split
    all_goals first
      | exact h
      | exact gCtx_taskReturn_isSome _ _ _ h
  | serveReturns t r =>
    cases t <;> simp only [step] <;> repeat' split
    all_goals first
      | exact h
      | exact gCtx_taskReturn_isSome _ _ _ h

theorem watcher_not_woken_step (env : Env) (st : State) (w : Task) (a : Action)
    (hw : w = .watchPrimary ∨ w = .watchMetrics)
    (hc : st.gCtx = none) (hn : st.pcOf w ≠ .woken) (hcancel : ∀ cause, a ≠ .cancel cause) :
    (step env st a).pcOf w ≠ .woken := by
  cases a with
  | cancel cause => exact absurd rfl (hcancel cause)
  | serveReturns t r =>
    have htw : w ≠ t ∨ step env st (.serveReturns t r) = st := by
      rcases hw with hw | hw <;> subst hw <;> cases t <;> first
        | exact Or.inl (by decide)
        | exact Or.inr rfl
    rcases htw with htw | htw
    · rw [(serveReturns_frame env st t w r htw).1]; exact hn
    · rw [htw]; exact hn
  | run t =>
    by_cases ht : t = w
    · subst ht
      intro hwk
      rcases hw with hw | hw <;> subst hw <;>
        simp only [step, watcher] at hwk <;> split at hwk
      all_goals first
        | exact hn hwk
        | (simp only [hc, Option.isSome_none, Bool.false_eq_true, if_false] at hwk
           exact hn hwk)
        | (rename_i heq; exact hn heq)
    · rw [pcOf_step_other env st t w (Ne.symm ht)]; exact hn

theorem wokenAfterDone_step (env : Env) (st : State) (a : Action) (h : WokenAfterDone st) :
    WokenAfterDone (step env st a) := by
  by_cases hc : st.gCtx.isSome = true
  · exact ⟨fun _ => gCtx_step_isSome env st a hc, fun _ => gCtx_step_isSome env st a hc⟩
  · have hnone : st.gCtx = none := by
      cases hg : st.gCtx with
      | none => rfl
      | some c => rw [hg] at hc; exact absurd rfl hc
    by_cases hcancel : ∃ cause, a = .cancel cause
    · obtain ⟨cause, rfl⟩ := hcancel
      constructor <;> intro _ <;> simp [step, hnone, cancelWith]
    · have hcancel' : ∀ cause, a ≠ .cancel cause := fun cause e => hcancel ⟨cause, e⟩
      constructor
      · intro hw
        exact absurd hw (watcher_not_woken_step env st .watchPrimary a (Or.inl rfl) hnone
          (fun e => hc (h.1 e)) hcancel')
      · intro hw
        exact absurd hw (watcher_not_woken_step env st .watchMetrics a (Or.inr rfl) hnone
          (fun e => hc (h.2 e)) hcancel')

/-- In every state of every `Serve` call, a watcher that is about to read its
handle (and so about to call `Shutdown(gCtx)`) finds `gCtx` done. -/
theorem watcher_woken_ctx_done (env : Env) (prev : State) (ctx : Err)
    (svcConf : Configuration) (sch : List Action) :
    WokenAfterDone (Serve env prev ctx svcConf sch) := by
  have h0 : WokenAfterDone (enter prev ctx svcConf) := by
    constructor <;> intro h <;> cases h
  have hrun : ∀ (sch : List Action) (st : State), WokenAfterDone st →
      WokenAfterDone (run env st sch) := by
    intro sch
    induction sch with
    | nil => intro st h; exact h
    | cons a sch ih => intro st h; exact ih _ (wokenAfterDone_step env st a h)
  exact hrun sch _ h0

/-! ## The group result -/

/-- C1: when all four tasks of a `Serve` call have returned, `Serve` returns;
the log of the group holds exactly the four returns in the order the group
observed them; `Serve` returns the first non-nil error of that log, unchanged
(later errors are dropped), and it returns nil exactly when all four tasks
returned nil. -/
theorem Serve_returns_first_observed_error (env : Env) (prev : State) (ctx : Err)
    (svcConf : Configuration) (sch : List Action) (r0 r1 r2 r3 : Err)
    (h0 : (Serve env prev ctx svcConf sch).pcPrimary = .done r0)
    (h1 : (Serve env prev ctx svcConf sch).pcMetrics = .done r1)
    (h2 : (Serve env prev ctx svcConf sch).pcWatchPrimary = .done r2)
    (h3 : (Serve env prev ctx svcConf sch).pcWatchMetrics = .done r3) :
    (Serve env prev ctx svcConf sch).observed.Perm
      [(.primary, r0), (.metrics, r1), (.watchPrimary, r2), (.watchMetrics, r3)] ∧
    returned (Serve env prev ctx svcConf sch)
      = some (firstError (Serve env prev ctx svcConf sch).observed) ∧
    (returned (Serve env prev ctx svcConf sch) = some none ↔
      r0 = none ∧ r1 = none ∧ r2 = none ∧ r3 = none) := by
  have hl : Logged (Serve env prev ctx svcConf sch) :=
    logged_run env sch _ (logged_enter prev ctx svcConf)
  generalize Serve env prev ctx svcConf sch = f at *
  obtain ⟨hg, hmem, hnd⟩ := hl
  have hall : f.allDone = true := (allDone_iff f).2 ⟨r0, r1, r2, r3, h0, h1, h2, h3⟩
  have hret : returned f = some (firstError f.observed) := by
    rw [returned_eq, if_pos hall, hg]
  have hmem' : ∀ t r, (t, r) ∈ f.observed ↔
      (t, r) ∈ [(Task.primary, r0), (Task.metrics, r1), (Task.watchPrimary, r2),
        (Task.watchMetrics, r3)] := by
    intro t r
    rw [hmem]
    cases t <;> simp [State.pcOf, h0, h1, h2, h3, eq_comm]
  refine ⟨?_, hret, ?_⟩
  · refine (List.perm_ext_iff_of_nodup (List.Nodup.of_map _ hnd) (by simp)).2 ?_
    rintro ⟨t, r⟩
    exact hmem' t r
  · rw [hret, Option.some.injEq, firstError_eq_none]
    constructor
    · intro h
      exact ⟨h .primary r0 ((hmem' _ _).2 (by simp)), h .metrics r1 ((hmem' _ _).2 (by simp)),
        h .watchPrimary r2 ((hmem' _ _).2 (by simp)),
        h .watchMetrics r3 ((hmem' _ _).2 (by simp))⟩
    · rintro ⟨e0, e1, e2, e3⟩ t r hm
      have := (hmem' t r).1 hm
      simp only [List.mem_cons, Prod.mk.injEq, List.mem_singleton, List.not_mem_nil,
        or_false] at this
      rcases this with ⟨_, h⟩ | ⟨_, h⟩ | ⟨_, h⟩ | ⟨_, h⟩ <;> rw [h] <;> assumption

/-- C1, witness: the primary accept loop fails first, the primary watcher fails
later with `context.Canceled`; `Serve` returns the first error. -/
theorem Serve_returns_first_observed_error_witness :
    (Serve inFlight fresh none conf faultAndDown).pcPrimary = .done (some ioFault) ∧
    (Serve inFlight fresh none conf faultAndDown).pcMetrics = .done none ∧
    (Serve inFlight fresh none conf faultAndDown).pcWatchPrimary = .done (some Canceled) ∧
    (Serve inFlight fresh none conf faultAndDown).pcWatchMetrics = .done none ∧
    returned (Serve inFlight fresh none conf faultAndDown)
      = some (firstError (Serve inFlight fresh none conf faultAndDown).observed) ∧
    firstError (Serve inFlight fresh none conf faultAndDown).observed = some ioFault :=
  ⟨by decide, by decide, by decide, by decide,
   (Serve_returns_first_observed_error inFlight fresh none conf faultAndDown
      (some ioFault) none (some Canceled) none
      (by decide) (by decide) (by decide) (by decide)).2.1,
   by decide⟩

/-! ## The shutdown watchers -/

/-- A watcher that has returned stays returned and calls `Shutdown` no more. -/
theorem watcher_done_step (env : Env) (st : State) (w : Task) (r : Err) (a : Action)
    (h : st.pcOf w = .done r) :
    (step env st a).pcOf w = .done r ∧
    (step env st a).shutdowns.filter (fun c => decide (c.caller = w)) =
      st.shutdowns.filter (fun c => decide (c.caller = w)) := by
  cases a with
  | cancel cause => exact ⟨by cases w <;> exact h, rfl⟩
  | run t =>
    by_cases htw : t = w
    · subst htw
      rw [step_of_done env st t r h]
      exact ⟨h, rfl⟩
    · refine ⟨by rw [pcOf_step_other env st t w (Ne.symm htw)]; exact h, ?_⟩
      rcases shutdowns_step env st t with hs | ⟨h', hs⟩
      · rw [hs]
      · rw [hs, List.filter_append]
        simp [htw]
  | serveReturns t r' =>
    by_cases htw : t = w
    · subst htw
      rw [serveReturns_of_done env st t r r' h]
      exact ⟨h, rfl⟩
    · obtain ⟨h1, h2⟩ := serveReturns_frame env st t w r' (Ne.symm htw)
      exact ⟨h1.trans h, by rw [h2]⟩

theorem watcher_done_run (env : Env) (w : Task) (r : Err) (sch : List Action) :
    ∀ st : State, st.pcOf w = .done r →
      (run env st sch).shutdowns.filter (fun c => decide (c.caller = w)) =
        st.shutdowns.filter (fun c => decide (c.caller = w)) := by
  induction sch with
  | nil => intro st _; rfl
  | cons a sch ih =>
    intro st h
    obtain ⟨h1, h2⟩ := watcher_done_step env st w r a h
    rw [run_cons, ih _ h1, h2]

/-- What a watcher's step does once it has observed cancellation. -/
theorem watcher_woken_step (env : Env) (st : State) (w : Task) (field : Option Nat)
    (hw : (w = .watchPrimary ∧ field = st.s.server) ∨
      (w = .watchMetrics ∧ field = st.s.metricsServer))
    (hpc : st.pcOf w = .woken) :
    (field = none → step env st (.run w) = taskReturn st w none) ∧
    (∀ h, field = some h → step env st (.run w) =
      taskReturn (shutdownCall st w h .gCtx) w (shutdownErr env st h .gCtx)) := by
  rcases hw with ⟨hw, hf⟩ | ⟨hw, hf⟩ <;> subst hw <;> subst hf
  · constructor
    · intro hn; simp only [step, watcher, hpc, hn]
    · intro h hh; simp only [step, watcher, hpc, hh, watcherResult_eq]
  · constructor
    · intro hn; simp only [step, watcher, hpc, hn]
    · intro h hh; simp only [step, watcher, hpc, hh, watcherResult_eq]

/-- C10: once a watcher has observed cancellation, its next step returns nil
without calling `Shutdown` if its handle is nil; if the handle is `h` it calls
`Shutdown` on `h` once, with the group context, and returns what that call
returned; and whatever happens afterwards it never calls `Shutdown` again. -/
theorem watcher_shuts_down_once (env : Env) (st : State) (w : Task) (field : Option Nat)
    (hw : (w = .watchPrimary ∧ field = st.s.server) ∨
      (w = .watchMetrics ∧ field = st.s.metricsServer))
    (hpc : st.pcOf w = .woken) :
    (field = none →
      (step env st (.run w)).pcOf w = .done none ∧
      (step env st (.run w)).shutdowns = st.shutdowns) ∧
    (∀ h, field = some h →
      (step env st (.run w)).shutdowns = st.shutdowns ++ [⟨w, h, .gCtx⟩] ∧
      (step env st (.run w)).pcOf w = .done (shutdownErr env st h .gCtx)) ∧
    (∀ sch : List Action,
      (run env (step env st (.run w)) sch).shutdowns.filter (fun c => decide (c.caller = w)) =
        (step env st (.run w)).shutdowns.filter (fun c => decide (c.caller = w))) := by
  obtain ⟨hnone, hsome⟩ := watcher_woken_step env st w field hw hpc
  refine ⟨?_, ?_, ?_⟩
  · intro hf
    rw [hnone hf]
    exact ⟨by rw [pcOf_taskReturn, if_pos rfl], shutdowns_taskReturn _ _ _⟩
  · intro h hf
    rw [hsome h hf]
    exact ⟨by rw [shutdowns_taskReturn]; rfl, by rw [pcOf_taskReturn, if_pos rfl]⟩
  · intro sch
    have hd : ∃ r, (step env st (.run w)).pcOf w = .done r := by
      cases hf : field with
      | none => rw [hnone hf]; exact ⟨_, by rw [pcOf_taskReturn, if_pos rfl]⟩
      | some h => rw [hsome h hf]; exact ⟨_, by rw [pcOf_taskReturn, if_pos rfl]⟩
    obtain ⟨r, hr⟩ := hd
    exact watcher_done_run env w r sch _ hr

/-- C10, witness: the primary watcher of a cancelled call calls `Shutdown` once,
on server 0 with the group context. -/
theorem watcher_shuts_down_once_witness :
    (runTasks inFlight (step inFlight (Serve inFlight fresh none conf bringUp)
      (.cancel Canceled)) [.watchPrimary]).pcOf .watchPrimary = .woken ∧
    (runTasks inFlight (step inFlight (Serve inFlight fresh none conf bringUp)
      (.cancel Canceled)) [.watchPrimary, .watchPrimary]).shutdowns
      = [⟨.watchPrimary, 0, .gCtx⟩] ∧
    (firstCall inFlight).shutdowns.filter (fun c => decide (c.caller = .watchPrimary))
      = [⟨.watchPrimary, 0, .gCtx⟩] :=
  ⟨by decide,
   ((watcher_shuts_down_once inFlight
      (runTasks inFlight (step inFlight (Serve inFlight fresh none conf bringUp)
        (.cancel Canceled)) [.watchPrimary]) .watchPrimary (some 0) (Or.inl ⟨rfl, by decide⟩)
      (by decide)).2.1 0 rfl).1,
   by decide⟩

/-! ## The benign closed indicator never surfaces -/

/-- C9, counterexample: after a first `Serve` call on a fresh server has
returned nil, a second call on the same server starts with the primary handle
of the first call still in its field, before any task has run; when the
second call's primary bind fails, its watcher calls `Shutdown` on that handle,
which was created during the first call. -/
theorem reused_server_keeps_earlier_handle :
    returned (firstCall freePorts) = some none ∧
    (enter (firstCall freePorts) none conf).s.server = some 0 ∧
    (enter (firstCall freePorts) none conf).s.metricsServer = some 1 ∧
    (enter (firstCall freePorts) none conf).pcPrimary = .start ∧
    (enter (firstCall freePorts) none conf).pcMetrics = .start ∧
    (enter (firstCall freePorts) none conf).base = 2 ∧
    (Serve portTaken (firstCall freePorts) none conf bindFails).pcPrimary
      = .done (some addrInUse) ∧
    (Serve portTaken (firstCall freePorts) none conf bindFails).shutdowns
      = (firstCall freePorts).shutdowns ++ [⟨.watchPrimary, 0, .gCtx⟩] := by
  decide

/-- C9, as amended: in a `Serve` call entered with both handles nil (as on a
server fresh from `NewServer`), the primary handle is nil until `startServer`
stores one and the metrics handle is nil until `startMetricsServer` stores
one; every handle in a field was created during this call; and every
`Shutdown` call made during this call is on a handle created during this
call. -/
theorem handles_of_call_entered_with_nil_handles (env : Env) (prev : State) (ctx : Err)
    (svcConf : Configuration) (sch : List Action)
    (hs : prev.s.server = none) (hm : prev.s.metricsServer = none) :
    ((Serve env prev ctx svcConf sch).pcPrimary = .start ∨
      (Serve env prev ctx svcConf sch).pcPrimary = .bound →
        (Serve env prev ctx svcConf sch).s.server = none) ∧
    ((Serve env prev ctx svcConf sch).pcMetrics = .start →
        (Serve env prev ctx svcConf sch).s.metricsServer = none) ∧
    (∀ h, (Serve env prev ctx svcConf sch).s.server = some h →
        prev.nextHandle ≤ h ∧ h < (Serve env prev ctx svcConf sch).nextHandle) ∧
    (∀ h, (Serve env prev ctx svcConf sch).s.metricsServer = some h →
        prev.nextHandle ≤ h ∧ h < (Serve env prev ctx svcConf sch).nextHandle) ∧
    (∃ new, (Serve env prev ctx svcConf sch).shutdowns = prev.shutdowns ++ new ∧
      ∀ c ∈ new, prev.nextHandle ≤ c.handle ∧
        c.handle < (Serve env prev ctx svcConf sch).nextHandle) := by
  have h : OwnHandles prev.shutdowns (Serve env prev ctx svcConf sch) :=
    ownHandles_run env _ sch _ (ownHandles_enter prev ctx svcConf hs hm)
  have hb : (Serve env prev ctx svcConf sch).base = prev.nextHandle :=
    base_run env sch _
  rw [OwnHandles, hb] at h
  exact ⟨h.2.2.2.1, h.2.2.2.2.1, h.2.1, h.2.2.1, h.2.2.2.2.2⟩

/-- C9, witness: a whole call on a fresh server; the handles and the `Shutdown`
calls are those of this call. -/
theorem handles_of_call_entered_with_nil_handles_witness :
    fresh.s.server = none ∧ fresh.s.metricsServer = none ∧
    (Serve freePorts fresh none conf upAndDown).s.server = some 0 ∧
    (Serve freePorts fresh none conf upAndDown).shutdowns
      = [⟨.watchPrimary, 0, .gCtx⟩, ⟨.watchMetrics, 1, .gCtx⟩] ∧
    (fresh.nextHandle ≤ 0 ∧ 0 < (Serve freePorts fresh none conf upAndDown).nextHandle) :=
  ⟨rfl, rfl, by decide, by decide,
   (handles_of_call_entered_with_nil_handles freePorts fresh none conf upAndDown
      rfl rfl).2.2.1 0 (by decide)⟩

/-! ## Cancellation while both listeners serve -/

/-- C2, counterexample: both ports are free and both listeners are bound and
serving; the caller cancels while the primary server still has a connection in
flight.  The primary watcher's `Shutdown(gCtx)` returns `context.Canceled`,
both servers are shut down, and `Serve` returns `context.Canceled`, not nil. -/
theorem cancel_with_connection_in_flight_returns_error :
    BothServing (Serve inFlight fresh none conf bringUp) 0 1 ∧
    inFlight.listen conf.Port = none ∧ inFlight.listen conf.MetricsPort = none ∧
    (runTasks inFlight (step inFlight (Serve inFlight fresh none conf bringUp)
      (.cancel Canceled)) drain).shuttingDown 0 = true ∧
    (runTasks inFlight (step inFlight (Serve inFlight fresh none conf bringUp)
      (.cancel Canceled)) drain).shuttingDown 1 = true ∧
    returned (runTasks inFlight (step inFlight (Serve inFlight fresh none conf bringUp)
      (.cancel Canceled)) drain) = some (some Canceled) := by
  unfold BothServing
  decide

theorem drainErr_eq_none (env : Env) (cause : GoError) (h : Nat) :
    drainErr env cause h = none ↔ env.busy h = false ∧ env.closeErr h = none := by
  unfold drainErr
  cases env.busy h <;> simp

theorem drained_of_pending_nil (env : Env) (cause : GoError) (st : State) (h0 h1 : Nat)
    (h : Draining env cause st h0 h1)
    (hp : pendingPrimary st = []) (hm : pendingMetrics st = []) : st.allDone = true := by
  obtain ⟨a, c, d, e, f, g, i, _, _, _⟩ := h
  have e' : st.pcWatchPrimary = .done (drainErr env cause h0) := by
    rcases e with e | e | e
    · simp [pendingPrimary, e] at hp
    · simp [pendingPrimary, e] at hp
    · exact e.1
  have f' : st.pcWatchMetrics = .done (drainErr env cause h1) := by
    rcases f with f | f | f
    · simp [pendingMetrics, f] at hm
    · simp [pendingMetrics, f] at hm
    · exact f.1
  have g' : st.pcPrimary = .done none := by
    rcases g with g | g
    · simp [pendingPrimary, e', g] at hp
    · exact g
  have i' : st.pcMetrics = .done none := by
    rcases i with i | i
    · simp [pendingMetrics, f', i] at hm
    · exact i
  exact (allDone_iff st).2 ⟨_, _, _, _, g', i', e', f'⟩

theorem pending_run (env : Env) (cause : GoError) (h0 h1 : Nat) (sch : List Task) :
    ∀ st : State, Draining env cause st h0 h1 →
      (pendingPrimary st).Sublist sch → (pendingMetrics st).Sublist sch →
      pendingPrimary (runTasks env st sch) = [] ∧ pendingMetrics (runTasks env st sch) = [] := by
  induction sch with
  | nil =>
    intro st _ hp hm
    exact ⟨List.sublist_nil.1 hp, List.sublist_nil.1 hm⟩
  | cons t sch ih =>
    intro st h hp hm
    rw [runTasks_cons]
    exact ih _ (draining_step env cause st h0 h1 t h)
      (pendingPrimary_step env cause st h0 h1 t sch h hp)
      (pendingMetrics_step env cause st h0 h1 t sch h hm)

/-- C2, as amended: both listeners are serving and the caller cancels.  Under
every interleaving of the four tasks and for every environment, with or
without connections in flight: when `Serve` returns, both servers have been
shut down and the value returned is the result of one of the two
`Shutdown(gCtx)` calls, nil exactly when neither server has a connection in
flight and closing the listeners reports no error; and `Serve` does return as
soon as each watcher has had two turns and its listener task one turn after
them. -/
theorem cancel_shuts_down_and_returns (env : Env) (st : State) (h0 h1 : Nat)
    (cause : GoError) (sch : List Task) (hs : BothServing st h0 h1) :
    (∀ r, returned (runTasks env (step env st (.cancel cause)) sch) = some r →
      (runTasks env (step env st (.cancel cause)) sch).shuttingDown h0 = true ∧
      (runTasks env (step env st (.cancel cause)) sch).shuttingDown h1 = true ∧
      (r = drainErr env cause h0 ∨ r = drainErr env cause h1) ∧
      (r = none ↔ Quiet env h0 h1)) ∧
    (List.Sublist [.watchPrimary, .watchPrimary, .primary] sch →
      List.Sublist [.watchMetrics, .watchMetrics, .metrics] sch →
      ∃ r, returned (runTasks env (step env st (.cancel cause)) sch) = some r) := by
  have hd := draining_of_cancel env st h0 h1 cause hs
  have hf := draining_run env cause h0 h1 sch _ hd
  constructor
  · intro r hr
    obtain ⟨_, _, _, e, f, _, _, j, k, l⟩ := hf
    rw [returned_eq] at hr
    split at hr
    · rename_i hall
      have hr' : (runTasks env (step env st (.cancel cause)) sch).gErr = r :=
        Option.some.inj hr
      obtain ⟨r0, r1, r2, r3, _, _, hw0, hw1⟩ := (allDone_iff _).1 hall
      have e' : (runTasks env (step env st (.cancel cause)) sch).pcWatchPrimary
            = .done (drainErr env cause h0) ∧
          (runTasks env (step env st (.cancel cause)) sch).shuttingDown h0 = true := by
        rcases e with e | e | e
        · rw [e] at hw0; cases hw0
        · rw [e] at hw0; cases hw0
        · exact e
      have f' : (runTasks env (step env st (.cancel cause)) sch).pcWatchMetrics
            = .done (drainErr env cause h1) ∧
          (runTasks env (step env st (.cancel cause)) sch).shuttingDown h1 = true := by
        rcases f with f | f | f
        · rw [f] at hw1; cases hw1
        · rw [f] at hw1; cases hw1
        · exact f
      rw [hr'] at j k l
      have hnone : r = none → drainErr env cause h0 = none ∧ drainErr env cause h1 = none :=
        fun hn => ⟨k e'.1 hn, l f'.1 hn⟩
      refine ⟨e'.2, f'.2, ?_, ?_⟩
      · rcases j with j | ⟨j, _⟩ | ⟨j, _⟩
        · exact Or.inl (j.trans (hnone j).1.symm)
        · exact Or.inl j
        · exact Or.inr j
      · have hq : Quiet env h0 h1 ↔
            drainErr env cause h0 = none ∧ drainErr env cause h1 = none := by
          unfold Quiet
          rw [drainErr_eq_none, drainErr_eq_none]
          exact ⟨fun ⟨q0, q1, q2, q3⟩ => ⟨⟨q0, q1⟩, ⟨q2, q3⟩⟩,
            fun ⟨⟨q0, q1⟩, ⟨q2, q3⟩⟩ => ⟨q0, q1, q2, q3⟩⟩
        rw [hq]
        constructor
        · exact hnone
        · rintro ⟨q0, q1⟩
          rcases j with j | ⟨j, _⟩ | ⟨j, _⟩
          · exact j
          · exact j.trans q0
          · exact j.trans q1
    · cases hr
  · intro hp hm
    have hp0 : pendingPrimary (step env st (.cancel cause))
        = [.watchPrimary, .watchPrimary, .primary] := by
      have : (step env st (.cancel cause)).pcWatchPrimary = .start := hs.2.2.2.2.1
      simp only [pendingPrimary, this]
    have hm0 : pendingMetrics (step env st (.cancel cause))
        = [.watchMetrics, .watchMetrics, .metrics] := by
      have : (step env st (.cancel cause)).pcWatchMetrics = .start := hs.2.2.2.2.2.1
      simp only [pendingMetrics, this]
    obtain ⟨e1, e2⟩ := pending_run env cause h0 h1 sch _ hd (hp0 ▸ hp) (hm0 ▸ hm)
    have hall := drained_of_pending_nil env cause _ h0 h1 hf e1 e2
    exact ⟨_, by rw [returned_eq, if_pos hall]⟩

/-- C2, witness: both listeners serve, the caller's deadline expires, nothing is
in flight; under an interleaved schedule `Serve` returns nil. -/
theorem cancel_shuts_down_and_returns_witness :
    BothServing (Serve freePorts fresh none conf bringUp) 0 1 ∧
    List.Sublist [.watchPrimary, .watchPrimary, .primary] drainInterleaved ∧
    List.Sublist [.watchMetrics, .watchMetrics, .metrics] drainInterleaved ∧
    Quiet freePorts 0 1 ∧
    returned (runTasks freePorts (step freePorts (Serve freePorts fresh none conf bringUp)
      (.cancel DeadlineExceeded)) drainInterleaved) = some none := by
  refine ⟨by unfold BothServing; decide, by decide, by decide, by unfold Quiet; decide, ?_⟩
  obtain ⟨hsafe, hlive⟩ := cancel_shuts_down_and_returns freePorts
    (Serve freePorts fresh none conf bringUp) 0 1 DeadlineExceeded drainInterleaved
    (by unfold BothServing; decide)
  obtain ⟨r, hr⟩ := hlive (by decide) (by decide)
  have hn : r = none := (hsafe r hr).2.2.2.2 (by unfold Quiet; decide)
  rw [hn] at hr
  exact hr

/-! ## The metrics handler -/

/-- C6: a request for exactly `/readyz` (GET or any other method) gets status
200 when the readiness probe returns true at the time of the request and 412
when it returns false; the probe is called anew for each request, so two
requests between which its value flips get different statuses. -/
theorem readyz_status (s : Server) (r : Request) (hp : r.Path = "/readyz") :
    (∀ now, s.config.ReadinessProbe now = true → metricsHandler s now r = 200) ∧
    (∀ now, s.config.ReadinessProbe now = false → metricsHandler s now r = 412) ∧
    (∀ t1 t2, s.config.ReadinessProbe t1 ≠ s.config.ReadinessProbe t2 →
      metricsHandler s t1 r ≠ metricsHandler s t2 r) := by
  refine ⟨?_, ?_, ?_⟩
  · intro now h; simp [metricsHandler, hp, h, StatusOK]
  · intro now h; simp [metricsHandler, hp, h, StatusPreconditionFailed]
  · intro t1 t2 h
    cases h1 : s.config.ReadinessProbe t1 <;> cases h2 : s.config.ReadinessProbe t2 <;>
      simp [metricsHandler, hp, h1, h2, StatusOK, StatusPreconditionFailed] at h ⊢

/-- C6, witness: the probe of `conf` is false at instant 4 and true at instant
5. -/
theorem readyz_status_witness :
    (⟨"GET", "/readyz"⟩ : Request).Path = "/readyz" ∧
    metricsHandler (enter fresh none conf).s 4 ⟨"GET", "/readyz"⟩ = 412 ∧
    metricsHandler (enter fresh none conf).s 5 ⟨"GET", "/readyz"⟩ = 200 :=
  ⟨rfl,
   (readyz_status (enter fresh none conf).s ⟨"GET", "/readyz"⟩ rfl).2.1 4 (by decide),
   (readyz_status (enter fresh none conf).s ⟨"GET", "/readyz"⟩ rfl).1 5 (by decide)⟩

/-- C7: a request for exactly `/healthz` (GET or any other method) gets status
200 whatever the server state and whatever the readiness probe returns. -/
theorem healthz_status (s : Server) (now : Nat) (r : Request) (hp : r.Path = "/healthz") :
    metricsHandler s now r = 200 := by
  simp [metricsHandler, hp, StatusOK]

/-- C7, witness: `/healthz` while the probe is false. -/
theorem healthz_status_witness :
    (⟨"GET", "/healthz"⟩ : Request).Path = "/healthz" ∧
    (enter fresh none conf).s.config.ReadinessProbe 4 = false ∧
    metricsHandler (enter fresh none conf).s 4 ⟨"GET", "/healthz"⟩ = 200 :=
  ⟨rfl, by decide, healthz_status (enter fresh none conf).s 4 ⟨"GET", "/healthz"⟩ rfl⟩

/-- C8: a request whose path is neither exactly `/healthz` nor exactly
`/readyz` gets status 404, whatever the method, the server state and the
readiness probe; this covers the empty path, `/`, `/healthz/`, `/readyz/x` and
case variants. -/
theorem other_path_status (s : Server) (now : Nat) (r : Request)
    (h1 : r.Path ≠ "/healthz") (h2 : r.Path ≠ "/readyz") :
    metricsHandler s now r = 404 ∧
    ∀ (method p : String), p ∈ ["", "/", "/healthz/", "/readyz/x", "/HEALTHZ", "/Readyz"] →
      metricsHandler s now ⟨method, p⟩ = 404 := by
  constructor
  · simp [metricsHandler, h1, h2, StatusNotFound]
  · intro method p hp
    simp only [List.mem_cons, List.mem_singleton, List.not_mem_nil, or_false] at hp
    rcases hp with h | h | h | h | h | h <;> subst h <;>
      simp [metricsHandler, StatusNotFound]

/-- C8, witness: the path `/metrics`. -/
theorem other_path_status_witness :
    (⟨"GET", "/metrics"⟩ : Request).Path ≠ "/healthz" ∧
    (⟨"GET", "/metrics"⟩ : Request).Path ≠ "/readyz" ∧
    metricsHandler (enter fresh none conf).s 7 ⟨"GET", "/metrics"⟩ = 404 :=
  ⟨by decide, by decide,
   (other_path_status (enter fresh none conf).s 7 ⟨"GET", "/metrics"⟩
      (by decide) (by decide)).1⟩

/-! ## The listener tasks -/

/-- C4: when the accept loop of a serving listener task (`startServer` after
its bind, or `startMetricsServer`) returns `r`, the task returns nil if `r` is
nil or is, or wraps, `http.ErrServerClosed`, and returns `r` itself for every
other `r`. -/
theorem listener_task_filters_server_closed (env : Env) (st : State) (t : Task) (h : Nat)
    (r : Err) (ht : t = .primary ∨ t = .metrics) (hpc : st.pcOf t = .serving h) :
    ∃ out, (step env st (.serveReturns t r)).pcOf t = .done out ∧
      ((r = none ∨ ∃ e, r = some e ∧ IsOrWraps e ErrServerClosed) → out = none) ∧
      ((r ≠ none ∧ ∀ e, r = some e → ¬ IsOrWraps e ErrServerClosed) → out = r) := by
  refine ⟨serveOutcome r, ?_, serveOutcome_benign r, fun hr => serveOutcome_other r hr.1 hr.2⟩
  rcases ht with ht | ht <;> subst ht <;> simp only [State.pcOf] at hpc <;>
    simp only [step, hpc] <;> rw [pcOf_taskReturn, if_pos rfl]

/-- C4, witness: the serving primary task returns nil for a wrapped
`http.ErrServerClosed` and the error itself for a bind error value. -/
theorem listener_task_filters_server_closed_witness :
    (Serve freePorts fresh none conf bringUp).pcOf .primary = .serving 0 ∧
    (step freePorts (Serve freePorts fresh none conf bringUp)
      (.serveReturns .primary (some (.wrap "serve" ErrServerClosed)))).pcOf .primary
      = .done none ∧
    (step freePorts (Serve freePorts fresh none conf bringUp)
      (.serveReturns .primary (some addrInUse))).pcOf .primary = .done (some addrInUse) :=
  ⟨by decide, by decide, by
    obtain ⟨out, h1, _, h3⟩ := listener_task_filters_server_closed freePorts
      (Serve freePorts fresh none conf bringUp) .primary 0 (some addrInUse) (Or.inl rfl)
      (by decide)
    rw [h1, h3 ⟨by decide, fun e he => by
      cases he
      intro hw
      exact absurd ((chainHas_iff _ _).2 hw) (by decide)⟩]⟩

/-- The error of a failed bind in `ListenAndServe` goes through the same
filter as every other return of the metrics serve call. -/
theorem startMetricsServer_listen_error (env : Env) (st : State) (h : Nat) (e : GoError)
    (hpc : st.pcMetrics = .created h) (hs : st.shuttingDown h = false)
    (hl : env.listen st.s.config.MetricsPort = some e) :
    (step env st (.run .metrics)).pcMetrics = .done (serveOutcome (some e)) := by
  simp only [step, startMetricsServer, hpc, hs, hl, Bool.false_eq_true, if_false]
  rw [pcMetrics_eq, pcOf_taskReturn, if_pos rfl]

/-- A failed bind of the primary port makes `startServer` return the bind
error at once: the handle field, the handler registration and the set of
allocated servers are unchanged, and the error becomes `g.err` unless an
earlier one is recorded. -/
theorem startServer_bind_failure (env : Env) (st : State) (e : GoError)
    (hpc : st.pcPrimary = .start) (hl : env.listen st.s.config.Port = some e) :
    (step env st (.run .primary)).pcPrimary = .done (some e) ∧
    (step env st (.run .primary)).s = st.s ∧
    (step env st (.run .primary)).registered = st.registered ∧
    (step env st (.run .primary)).nextHandle = st.nextHandle ∧
    (step env st (.run .primary)).gErr ≠ none ∧
    ∀ sch r, returned (run env (step env st (.run .primary)) sch) = some r → r ≠ none := by
  have hs : step env st (.run .primary) = taskReturn st .primary (some e) := by
    simp only [step, startServer, hpc, hl]
  have hg : ∃ e', (step env st (.run .primary)).gErr = some e' := by
    rw [hs, gErr_taskReturn]
    cases st.gErr with
    | none => exact ⟨e, rfl⟩
    | some e' => exact ⟨e', rfl⟩
  refine ⟨?_, ?_, ?_, ?_, ?_, ?_⟩
  · rw [hs, pcPrimary_eq, pcOf_taskReturn, if_pos rfl]
  · rw [hs, s_taskReturn]
  · rw [hs, registered_taskReturn]
  · rw [hs, nextHandle_taskReturn]
  · obtain ⟨e', he'⟩ := hg
    rw [he']; simp
  · intro sch r hr
    obtain ⟨e', he'⟩ := hg
    have := gErr_run env e' sch _ he'
    rw [returned_eq] at hr
    split at hr
    · rw [this] at hr
      cases hr
      simp
    · cases hr

/-- C3: with the primary port in use, `startServer` returns the bind error
without storing a handle or registering the handler and the group records
that error, but under the schedule `watcherFirst` the metrics watcher reads a
nil handle before `startMetricsServer` stores one, so the metrics listener is
never shut down and `Serve` does not return: no task can move any more.
(Under `metricsFirst`, where the handle is stored first, `Serve` returns the
bind error.) -/
theorem bind_failure_can_block_Serve :
    returned (Serve portTaken fresh none conf metricsFirst) = some (some addrInUse) ∧
    blocked.pcPrimary = .done (some addrInUse) ∧ blocked.s.server = none ∧
    blocked.registered = false ∧ blocked.gErr = some addrInUse ∧
    blocked.pcWatchPrimary = .done none ∧ blocked.pcWatchMetrics = .done none ∧
    blocked.pcMetrics = .serving 0 ∧ blocked.shuttingDown 0 = false ∧
    blocked.shutdowns = [] ∧
    ∀ sch : List Task, returned (runTasks portTaken blocked sch) = none := by
  refine ⟨by decide, by decide, by decide, by decide, by decide, by decide, by decide,
    by decide, by decide, by decide, ?_⟩
  have hfix : ∀ t : Task, step portTaken blocked (.run t) = blocked := by
    intro t; cases t <;> rfl
  intro sch
  induction sch with
  | nil => decide
  | cons t sch ih => rw [runTasks_cons, hfix]; exact ih

end SyncServer
